import Mathlib

/-!
Verification development for the input shortcut matcher
(`src/libs/ui/input/kis_shortcut_matcher.cpp`).

The matcher is embedded shallowly: the `Private` state becomes the record
`MState`, every public entry point becomes one case of the step function
`stepCore`, and every call the matcher makes into a registered action
(`activate` / `begin` / `inputEvent` / `end` / `deactivate`) is recorded in an
output trace of `ACall` values.  Re-entrant input (an action whose `begin`
pumps the event loop and re-enters the matcher) is modelled by a behaviour
function `Beh` that maps an action id to the list of entry-point events its
`begin` performs, interpreted with a fuel bound.

The shortcut descriptor classes (`KisSingleActionShortcut`,
`KisStrokeShortcut`, `KisTouchShortcut`, `KisNativeGestureShortcut`) are not
part of the sources; their match predicates are modelled from the spec and
are marked as such in their doc comments.
-/

namespace Krita

/-- Triggers of single-action shortcuts: a keyboard key or a wheel action
(the two template instantiations of `tryRunSingleActionShortcutImpl`). -/
inductive Trigger where
  | key (k : Nat)
  | wheel (w : Nat)
deriving DecidableEq

/-- A registered `KisSingleActionShortcut`: key set, trigger, action-group
bits, priority, owned action id and shortcut index. -/
structure SingleShortcut where
  keys : List Nat
  trigger : Trigger
  group : Nat
  priority : Nat
  action : Nat
  index : Nat
deriving DecidableEq

/-- A registered `KisStrokeShortcut`. -/
structure StrokeShortcut where
  keys : List Nat
  buttons : List Nat
  group : Nat
  priority : Nat
  action : Nat
  index : Nat
deriving DecidableEq

/-- A registered `KisTouchShortcut`: touch-point range and gesture kind. -/
structure TouchShortcut where
  minPoints : Nat
  maxPoints : Nat
  isDrag : Bool
  group : Nat
  priority : Nat
  action : Nat
  index : Nat
deriving DecidableEq

/-- A registered `KisNativeGestureShortcut`. -/
structure NGShortcut where
  kind : Nat
  group : Nat
  priority : Nat
  action : Nat
  index : Nat
deriving DecidableEq

/-- One touch point of a `QTouchEvent`: current and start position (pixel
coordinates, modelled as integers). -/
structure TouchPoint where
  px : Int
  py : Int
  sx : Int
  sy : Int
deriving DecidableEq

/-- A `QTouchEvent` as the matcher inspects it: the touch points, and whether
`touchPointStates()` contains the `TouchPointPressed` / `TouchPointReleased`
bits. -/
structure TouchEv where
  points : List TouchPoint
  hasPressed : Bool
  hasReleased : Bool
deriving DecidableEq

/-- A `QNativeGestureEvent` as the matcher inspects it. -/
structure NGEv where
  kind : Nat
deriving DecidableEq

/-- Input-event payloads handed on to actions: an opaque OS event, the fake
release event synthesised by `forceEndRunningShortcut`, or a touch event. -/
inductive IEv where
  | raw (n : Nat)
  | fake (x y : Int)
  | touch (te : TouchEv)
deriving DecidableEq

/-- One call made by the matcher into a registered action.  `beginC` and
`endC` carry the event pointer passed (none models a null `QEvent*`). -/
inductive ACall where
  | activate (action idx : Nat)
  | beginC (action idx : Nat) (ev : Option IEv)
  | inputEv (action : Nat)
  | endC (action : Nat) (ev : Option IEv)
  | deactivate (action idx : Nat)
deriving DecidableEq

/-- The public entry points of `KisShortcutMatcher` that the model covers,
one constructor per entry point (registration included). -/
inductive Ev where
  | keyPressed (k : Nat)
  | autoRepeatKey (k : Nat)
  | keyReleased (k : Nat)
  | buttonPressed (b : Nat) (ev : IEv)
  | buttonReleased (b : Nat) (ev : IEv)
  | wheelEvent (w : Nat) (ev : IEv)
  | pointerMoved (ev : IEv)
  | enterEvent
  | leaveEvent
  | touchBegin (e : TouchEv)
  | touchUpdate (e : TouchEv)
  | touchEnd (e : TouchEv)
  | touchCancel (e : TouchEv) (x y : Int)
  | touchResetPointer
  | gestureBegin
  | gestureUpdate (e : NGEv)
  | gestureEnd (e : NGEv)
  | lostFocus (x y : Int)
  | toolActivated
  | reinit
  | reinitButtons
  | clearAll
  | setSuppressActions (b : Bool)
  | addSingle (sh : SingleShortcut)
  | addStroke (sh : StrokeShortcut)
  | addTouch (sh : TouchShortcut)
  | addNative (sh : NGShortcut)
deriving DecidableEq

/-! ### Set helpers (`QSet` modelled as a duplicate-free-by-use list) -/

/-- Membership in a list used as a set. -/
def inSet [DecidableEq α] (x : α) (l : List α) : Bool :=
  l.any (fun y => decide (y = x))

/-- `QSet::insert`. -/
def insertS (x : Nat) (l : List Nat) : List Nat :=
  if inSet x l then l else l ++ [x]

/-- `QSet::remove`. -/
def removeS (x : Nat) (l : List Nat) : List Nat :=
  l.filter (fun y => !decide (y = x))

/-- Set equality of two lists. -/
def eqSet (a b : List Nat) : Bool :=
  a.all (fun x => inSet x b) && b.all (fun x => inSet x a)

/-- Set inclusion of two lists. -/
def subsetS (a b : List Nat) : Bool :=
  a.all (fun x => inSet x b)

/-! ### Shortcut match predicates

The shortcut classes are not in the sources; these predicates are modelled
from the spec (sections 3, 4.C, 4.D, 4.E, 4.F). -/

/-- Modelled from the spec: availability of a shortcut under the current
action-group mask, `s.group ⊆ mask()` on the group bit-set. -/
def availableUnder (group mask : Nat) : Bool :=
  decide (Nat.land group mask = group)

/-- Modelled from the spec: `KisSingleActionShortcut::match` — the key state
equals the shortcut's key set and the trigger (key or wheel action) equals
the shortcut's trigger. -/
def singleMatch (sh : SingleShortcut) (keysState : List Nat) (trig : Trigger) : Bool :=
  eqSet sh.keys keysState && decide (sh.trigger = trig)

/-- Modelled from the spec: `KisStrokeShortcut::matchReady` — keys equal and
the held buttons are a strict subset of the shortcut's buttons. -/
def strokeMatchReady (sh : StrokeShortcut) (heldKeys heldButtons : List Nat) : Bool :=
  eqSet sh.keys heldKeys && subsetS heldButtons sh.buttons &&
    !eqSet sh.buttons heldButtons

/-- Modelled from the spec: `KisStrokeShortcut::matchBegin b` — the
shortcut's buttons equal the held buttons plus `b`, and keys equal the held
keys. -/
def strokeMatchBegin (sh : StrokeShortcut) (heldKeys heldButtons : List Nat) (b : Nat) : Bool :=
  eqSet sh.keys heldKeys && eqSet sh.buttons (insertS b heldButtons)

/-- Modelled from the spec: `KisTouchShortcut::matchDragType` — the gesture
kind is drag and the touch-point count lies in the shortcut's range. -/
def touchMatchDrag (sh : TouchShortcut) (e : TouchEv) : Bool :=
  sh.isDrag && decide (sh.minPoints ≤ e.points.length) &&
    decide (e.points.length ≤ sh.maxPoints)

/-- Modelled from the spec: `KisTouchShortcut::matchTapType` — the gesture
kind is tap and the touch-point count lies in the shortcut's range. -/
def touchMatchTap (sh : TouchShortcut) (e : TouchEv) : Bool :=
  !sh.isDrag && decide (sh.minPoints ≤ e.points.length) &&
    decide (e.points.length ≤ sh.maxPoints)

/-- Modelled from the spec: `KisNativeGestureShortcut::match` — the event's
gesture kind equals the shortcut's kind. -/
def ngMatch (sh : NGShortcut) (e : NGEv) : Bool :=
  decide (sh.kind = e.kind)

/-- The default `AllActionGroup` mask (all group bits set). -/
def AllActionGroup : Nat := 2 ^ 32 - 1

/-- The matcher's `Private` state. -/
structure MState where
  singleActionShortcuts : List SingleShortcut
  suppressedSingle : List SingleShortcut
  strokeShortcuts : List StrokeShortcut
  touchShortcuts : List TouchShortcut
  nativeGestureShortcuts : List NGShortcut
  keys : List Nat
  buttons : List Nat
  runningShortcut : Option StrokeShortcut
  readyShortcut : Option StrokeShortcut
  candidateShortcuts : List StrokeShortcut
  touchShortcut : Option TouchShortcut
  nativeGestureShortcut : Option NGShortcut
  lastTouchPoints : List TouchPoint
  maxTouchPoints : Nat
  matchingIteration : Nat
  isTouchDragDetected : Bool
  bestCandidateTouchEvent : Option TouchEv
  actionGroupMask : Nat
  suppressAllActions : Bool
  cursorEntered : Bool
  usingTouch : Bool
  usingNativeGesture : Bool
  recursiveCounter : Nat
  brokenByRecursion : Nat
deriving DecidableEq

/-- The freshly constructed matcher (`Private::Private`). -/
def initState : MState where
  singleActionShortcuts := []
  suppressedSingle := []
  strokeShortcuts := []
  touchShortcuts := []
  nativeGestureShortcuts := []
  keys := []
  buttons := []
  runningShortcut := none
  readyShortcut := none
  candidateShortcuts := []
  touchShortcut := none
  nativeGestureShortcut := none
  lastTouchPoints := []
  maxTouchPoints := 0
  matchingIteration := 0
  isTouchDragDetected := false
  bestCandidateTouchEvent := none
  actionGroupMask := AllActionGroup
  suppressAllActions := false
  cursorEntered := false
  usingTouch := false
  usingNativeGesture := false
  recursiveCounter := 0
  brokenByRecursion := 0

/-! ### Pure helpers of `KisShortcutMatcher::Private` and the matcher -/

/-- `Private::actionsSuppressed` (the non-Android branch of the source). -/
def actionsSuppressed (s : MState) : Bool :=
  s.suppressAllActions || !s.cursorEntered

/-- `Private::actionsSuppressedIgnoreFocus`. -/
def actionsSuppressedIgnoreFocus (s : MState) : Bool :=
  s.suppressAllActions

/-- `Private::isUsingTouch`. -/
def usingTouchNow (s : MState) : Bool :=
  s.usingTouch || s.usingNativeGesture

/-- `RecursionNotifier::isInRecursion`. -/
def inRecursion (s : MState) : Bool :=
  decide (s.recursiveCounter > 1)

/-- `RecursionNotifier` construction: increments the recursion counter and
the broken-by-recursion counter. -/
def enterNotifier (s : MState) : MState :=
  { s with recursiveCounter := s.recursiveCounter + 1,
           brokenByRecursion := s.brokenByRecursion + 1 }

/-- `RecursionNotifier` destruction: decrements the recursion counter. -/
def exitNotifier (s : MState) : MState :=
  { s with recursiveCounter := s.recursiveCounter - 1 }

/-- `KisShortcutMatcher::reset`: clears the key and button models. -/
def resetKB (s : MState) : MState :=
  { s with keys := [], buttons := [] }

/-- The shared fold of the matcher's candidate loops: scan the list, keep
an element satisfying `cond` whenever no candidate is held yet or its
priority is strictly greater than the held candidate's. -/
def pickCondMaxBy (cond : α → Bool) (p : α → Nat) : Option α → List α → Option α
  | acc, [] => acc
  | acc, x :: xs =>
    pickCondMaxBy cond p
      (if cond x && (match acc with
                     | none => true
                     | some a => decide (p x > p a)) then some x else acc) xs

/-- `KisShortcutMatcher::forceDeactivateAllActions`. -/
def forceDeactivateAll (s : MState) : MState × List ACall :=
  match s.readyShortcut with
  | some r => ({ s with readyShortcut := none }, [ACall.deactivate r.action r.index])
  | none => (s, [])

/-- `KisShortcutMatcher::prepareReadyShortcuts`. -/
def prepareReady (s : MState) : MState :=
  let s1 := { s with candidateShortcuts := [] }
  if actionsSuppressed s1 then s1
  else { s1 with candidateShortcuts :=
          s1.strokeShortcuts.filter (fun sh => strokeMatchReady sh s1.keys s1.buttons) }

/-- `KisShortcutMatcher::tryActivateReadyShortcut`. -/
def tryActivateReady (s : MState) : MState × List ACall :=
  match pickCondMaxBy (fun _ => true) StrokeShortcut.priority none s.candidateShortcuts with
  | some good =>
    match s.readyShortcut with
    | some r =>
      if decide (r = good) then (s, [])
      else ({ s with readyShortcut := some good },
            [ACall.deactivate r.action r.index, ACall.activate good.action good.index])
    | none => ({ s with readyShortcut := some good },
               [ACall.activate good.action good.index])
  | none =>
    match s.readyShortcut with
    | some r => ({ s with readyShortcut := none }, [ACall.deactivate r.action r.index])
    | none => (s, [])

/-- `KisShortcutMatcher::tryEndRunningShortcut`. -/
def tryEndRunning (s : MState) (b : Nat) (ev : IEv) : MState × List ACall × Bool :=
  match s.runningShortcut with
  | none => (s, [], true)
  | some r =>
    let p :=
      match s.readyShortcut with
      | some _ => forceDeactivateAll s
      | none => (s, [])
    if strokeMatchBegin r p.1.keys p.1.buttons b then
      ({ p.1 with runningShortcut := none },
       p.2 ++ [ACall.endC r.action (some ev), ACall.deactivate r.action r.index], true)
    else (p.1, p.2, false)

/-- `KisShortcutMatcher::forceEndRunningShortcut`. -/
def forceEndRunning (s : MState) (x y : Int) : MState × List ACall :=
  match s.runningShortcut with
  | none => (s, [])
  | some r =>
    let p :=
      match s.readyShortcut with
      | some _ => forceDeactivateAll s
      | none => (s, [])
    ({ p.1 with runningShortcut := none },
     p.2 ++ [ACall.endC r.action (some (IEv.fake x y)), ACall.deactivate r.action r.index])

/-- `KisShortcutMatcher::tryEndTouchShortcut`. -/
def tryEndTouch (s : MState) (ev : IEv) : MState × List ACall × Bool :=
  match s.touchShortcut with
  | some t =>
    ({ s with touchShortcut := none },
     [ACall.endC t.action (some ev), ACall.deactivate t.action t.index], true)
  | none => (s, [], false)

/-- `KisShortcutMatcher::tryEndNativeGestureShortcut`. -/
def tryEndNative (s : MState) : MState × List ACall × Bool :=
  match s.nativeGestureShortcut with
  | some g =>
    ({ s with nativeGestureShortcut := none },
     [ACall.endC g.action none, ACall.deactivate g.action g.index], true)
  | none => (s, [], false)

/-- The good-candidate fold of `tryRunSingleActionShortcutImpl`. -/
def singleGood (s : MState) (trig : Trigger) (keysState : List Nat) : Option SingleShortcut :=
  pickCondMaxBy
    (fun sh => !inSet sh s.suppressedSingle &&
       availableUnder sh.group s.actionGroupMask && singleMatch sh keysState trig)
    SingleShortcut.priority none s.singleActionShortcuts

/-- `KisShortcutMatcher::matchTouchShortcut`. -/
def matchTouch (s : MState) (e : TouchEv) : Option TouchShortcut :=
  pickCondMaxBy
    (fun sh => availableUnder sh.group s.actionGroupMask &&
       ((touchMatchDrag sh e && s.isTouchDragDetected) ||
        (touchMatchTap sh e && !s.isTouchDragDetected)))
    TouchShortcut.priority none s.touchShortcuts

/-- `KisShortcutMatcher::setMaxTouchPointEvent`. -/
def setMaxTouchPointEv (s : MState) (e : TouchEv) : MState :=
  if decide (e.points.length > s.maxTouchPoints) then
    { s with maxTouchPoints := e.points.length, bestCandidateTouchEvent := some e }
  else s

/-- Squared displacement of one touch point from its start position,
`delta.x()*delta.x() + delta.y()*delta.y()`. -/
def deltaSq (pt : TouchPoint) : Int :=
  (pt.px - pt.sx) * (pt.px - pt.sx) + (pt.py - pt.sy) * (pt.py - pt.sy)

/-- The drag-detection loop of `touchUpdateEvent`: for each point, while
drag is not yet detected, set the flag to `deltaSquared > touchSlopSquared`
with `touchSlopSquared = 16 * 16`. -/
def dragFold (points : List TouchPoint) (init : Bool) : Bool :=
  points.foldl (fun d pt => if d then d else decide (deltaSq pt > 16 * 16)) init

/-! ### Begin-invoking helpers

Each of these wraps a call to some action's `begin`.  Re-entrant input from
`begin` is modelled by `nst s evs`: run the nested entry-point list `evs`
(given by the behaviour of the action) from state `s`, returning the state
after `begin` and the calls emitted during it. -/

/-- What each action's `begin` does to the matcher: the entry points it
re-enters.  A well-behaved action has behaviour `[]`. -/
abbrev Beh := Nat → List Ev

/-- The behaviour of well-behaved actions: `begin` never re-enters. -/
def noBeh : Beh := fun _ => []

/-- `KisShortcutMatcher::tryRunSingleActionShortcutImpl`. -/
def runSingleImpl (nst : MState → List Ev → MState × List ACall) (beh : Beh)
    (s : MState) (trig : Trigger) (ev : Option IEv) (keysState : List Nat) :
    MState × List ACall × Bool :=
  if actionsSuppressedIgnoreFocus s then (s, [], false)
  else
    match singleGood s trig keysState with
    | some g =>
      let p := nst s (beh g.action)
      (p.1, ACall.beginC g.action g.index ev :: p.2 ++ [ACall.endC g.action none], true)
    | none => (s, [], false)

/-- `KisShortcutMatcher::tryRunReadyShortcut`. -/
def runReadyShortcut (nst : MState → List Ev → MState × List ACall) (beh : Beh)
    (s : MState) (b : Nat) (ev : IEv) : MState × List ACall × Bool :=
  match pickCondMaxBy
      (fun sh => availableUnder sh.group s.actionGroupMask &&
         strokeMatchBegin sh s.keys s.buttons b)
      StrokeShortcut.priority none s.candidateShortcuts with
  | none => (s, [], s.runningShortcut.isSome)
  | some g =>
    let p :=
      match s.readyShortcut with
      | some r =>
        if decide (r = g) then ({ s with readyShortcut := none }, ([] : List ACall))
        else ({ s with readyShortcut := none },
              [ACall.deactivate r.action r.index, ACall.activate g.action g.index])
      | none => (s, [ACall.activate g.action g.index])
    let s2 := { p.1 with runningShortcut := some g, brokenByRecursion := 0 }
    let q := nst s2 (beh g.action)
    if decide (q.1.brokenByRecursion > 0) then
      let s4 := { q.1 with runningShortcut := none }
      let r4 := forceDeactivateAll s4
      (r4.1,
       p.2 ++ ACall.beginC g.action g.index (some ev) :: q.2 ++
         ACall.endC g.action (some ev) :: r4.2,
       r4.1.runningShortcut.isSome)
    else
      (q.1, p.2 ++ ACall.beginC g.action g.index (some ev) :: q.2,
       q.1.runningShortcut.isSome)

/-- `KisShortcutMatcher::tryRunTouchShortcut`. -/
def runTouchShortcut (nst : MState → List Ev → MState × List ACall) (beh : Beh)
    (s : MState) (e : TouchEv) : MState × List ACall × Bool :=
  let good := matchTouch s e
  if actionsSuppressed s then (s, [], false)
  else
    match good with
    | none => (s, [], s.touchShortcut.isSome)
    | some g =>
      let p1 :=
        match s.runningShortcut with
        | some _ =>
          let r := tryEndRunning s 1
            (IEv.touch { points := e.points, hasPressed := false, hasReleased := true })
          (r.1, r.2.1)
        | none => (s, [])
      let p2 :=
        match p1.1.readyShortcut with
        | some r => ({ p1.1 with readyShortcut := none },
                     [ACall.deactivate r.action r.index])
        | none => (p1.1, ([] : List ACall))
      let s3 := { p2.1 with touchShortcut := some g, usingTouch := true,
                            brokenByRecursion := 0 }
      let q := nst s3 (beh g.action)
      if decide (q.1.brokenByRecursion > 0) then
        let s5 := { q.1 with touchShortcut := none }
        let r5 := forceDeactivateAll s5
        (r5.1,
         p1.2 ++ p2.2 ++ ACall.activate g.action g.index ::
           ACall.beginC g.action g.index (some (IEv.touch e)) :: q.2 ++
           ACall.endC g.action (some (IEv.touch e)) :: r5.2,
         r5.1.touchShortcut.isSome)
      else
        (q.1,
         p1.2 ++ p2.2 ++ ACall.activate g.action g.index ::
           ACall.beginC g.action g.index (some (IEv.touch e)) :: q.2,
         q.1.touchShortcut.isSome)

/-- `KisShortcutMatcher::tryRunNativeGestureShortcut`. -/
def runNativeShortcut (nst : MState → List Ev → MState × List ACall) (beh : Beh)
    (s : MState) (e : NGEv) : MState × List ACall × Bool :=
  if actionsSuppressed s then (s, [], false)
  else
    match pickCondMaxBy (fun sh => ngMatch sh e) NGShortcut.priority none
        s.nativeGestureShortcuts with
    | none => (s, [], s.nativeGestureShortcut.isSome)
    | some g =>
      let s1 := { s with nativeGestureShortcut := some g, usingNativeGesture := true,
                         brokenByRecursion := 0 }
      let q := nst s1 (beh g.action)
      if decide (q.1.brokenByRecursion > 0) then
        let s3 := { q.1 with nativeGestureShortcut := none }
        let r3 := forceDeactivateAll s3
        (r3.1,
         ACall.activate g.action g.index :: ACall.beginC g.action g.index none :: q.2 ++
           ACall.endC g.action none :: r3.2,
         r3.1.nativeGestureShortcut.isSome)
      else
        (q.1,
         ACall.activate g.action g.index :: ACall.beginC g.action g.index none :: q.2,
         q.1.nativeGestureShortcut.isSome)

/-- `KisShortcutMatcher::fireReadyTouchShortcut`. -/
def fireReadyTouch (nst : MState → List Ev → MState × List ACall) (beh : Beh)
    (s : MState) (e : TouchEv) : MState × List ACall :=
  match matchTouch s e with
  | some g =>
    let q := nst s (beh g.action)
    (q.1,
     ACall.activate g.action g.index ::
       ACall.beginC g.action g.index (some (IEv.touch e)) :: q.2 ++
       [ACall.endC g.action (some (IEv.touch e)), ACall.deactivate g.action g.index])
  | none => (s, [])

/-! ### The step function -/

/-- One public entry point of the matcher, with `nst` interpreting nested
re-entry from an action's `begin`.  Returns the new state, the action calls
emitted in order, and the entry point's boolean result (`false` for the
`void` entry points). -/
def stepCore (nst : MState → List Ev → MState × List ACall) (beh : Beh)
    (s0 : MState) (ev : Ev) : MState × List ACall × Bool :=
  match ev with
  | Ev.keyPressed k =>
    let s := enterNotifier s0
    let p :=
      if !s.runningShortcut.isSome && !inRecursion s then
        runSingleImpl nst beh s (Trigger.key k) none s.keys
      else (s, [], false)
    let s2 := { p.1 with keys := insertS k p.1.keys }
    let q :=
      if inRecursion s2 then forceDeactivateAll s2
      else if !s2.runningShortcut.isSome then tryActivateReady (prepareReady s2)
      else (s2, [])
    (exitNotifier q.1, p.2.1 ++ q.2, p.2.2)
  | Ev.autoRepeatKey k =>
    let s := enterNotifier s0
    let p :=
      if inRecursion s then
        let r := forceDeactivateAll s
        (r.1, r.2, false)
      else if !s.runningShortcut.isSome then
        runSingleImpl nst beh s (Trigger.key k) none (removeS k s.keys)
      else (s, [], false)
    (exitNotifier p.1, p.2.1, p.2.2)
  | Ev.keyReleased k =>
    let s := enterNotifier s0
    let s1 := if inSet k s.keys then { s with keys := removeS k s.keys } else s
    let q :=
      if inRecursion s1 then forceDeactivateAll s1
      else if !s1.runningShortcut.isSome then tryActivateReady (prepareReady s1)
      else (s1, [])
    (exitNotifier q.1, q.2, false)
  | Ev.buttonPressed b iev =>
    let s := enterNotifier s0
    if usingTouchNow s then (exitNotifier s, [], false)
    else
      let p :=
        if !s.runningShortcut.isSome && !inRecursion s then
          runReadyShortcut nst beh (prepareReady s) b iev
        else (s, [], false)
      let s2 := { p.1 with buttons := insertS b p.1.buttons }
      let q :=
        if inRecursion s2 then forceDeactivateAll s2
        else if !s2.runningShortcut.isSome then tryActivateReady (prepareReady s2)
        else (s2, [])
      (exitNotifier q.1, p.2.1 ++ q.2, p.2.2)
  | Ev.buttonReleased b iev =>
    let s := enterNotifier s0
    if usingTouchNow s then (exitNotifier s, [], false)
    else
      let p :=
        if s.runningShortcut.isSome then tryEndRunning s b iev
        else (s, [], false)
      let s2 :=
        if inSet b p.1.buttons then { p.1 with buttons := removeS b p.1.buttons }
        else resetKB p.1
      let q :=
        if inRecursion s2 then forceDeactivateAll s2
        else if !s2.runningShortcut.isSome then tryActivateReady (prepareReady s2)
        else (s2, [])
      (exitNotifier q.1, p.2.1 ++ q.2, p.2.2)
  | Ev.wheelEvent w iev =>
    let s := enterNotifier s0
    if s.runningShortcut.isSome || usingTouchNow s || inRecursion s then
      (exitNotifier s, [], false)
    else
      let p := runSingleImpl nst beh s (Trigger.wheel w) (some iev) s.keys
      (exitNotifier p.1, p.2.1, p.2.2)
  | Ev.pointerMoved _ =>
    let s := enterNotifier s0
    if usingTouchNow s || !s.runningShortcut.isSome || inRecursion s then
      (exitNotifier s, [], false)
    else
      match s.runningShortcut with
      | some r => (exitNotifier s, [ACall.inputEv r.action], true)
      | none => (exitNotifier s, [], false)
  | Ev.enterEvent =>
    let s := { enterNotifier s0 with cursorEntered := true }
    let q :=
      if inRecursion s then forceDeactivateAll s
      else if !s.runningShortcut.isSome then tryActivateReady (prepareReady s)
      else (s, [])
    (exitNotifier q.1, q.2, false)
  | Ev.leaveEvent =>
    let s := { enterNotifier s0 with cursorEntered := false }
    let q :=
      if inRecursion s then forceDeactivateAll s
      else if !s.runningShortcut.isSome then tryActivateReady (prepareReady s)
      else (s, [])
    (exitNotifier q.1, q.2, false)
  | Ev.touchBegin e =>
    let s := enterNotifier s0
    let s1 := { s with lastTouchPoints := e.points,
                       maxTouchPoints := e.points.length,
                       matchingIteration := 1,
                       isTouchDragDetected := false,
                       bestCandidateTouchEvent := some e }
    (exitNotifier s1, [], !inRecursion s1)
  | Ev.touchUpdate e =>
    let tpc := e.points.length
    let s := { s0 with isTouchDragDetected := dragFold e.points s0.isTouchDragDetected }
    if decide (s.matchingIteration ≤ 10) && !s.isTouchDragDetected then
      let s1 := setMaxTouchPointEv { s with matchingIteration := s.matchingIteration + 1 } e
      let ret :=
        match s1.bestCandidateTouchEvent with
        | some be => (matchTouch s1 be).isSome
        | none => false
      (s1, [], ret)
    else if s.isTouchDragDetected then
      let p :=
        match s.touchShortcut with
        | some t => if !touchMatchDrag t e then tryEndTouch s (IEv.touch e) else (s, [], false)
        | none => (s, [], false)
      if !p.1.touchShortcut.isSome && decide (tpc ≥ p.1.maxTouchPoints) then
        let q := runTouchShortcut nst beh { p.1 with maxTouchPoints := tpc } e
        (q.1, p.2.1 ++ q.2.1, q.2.2)
      else
        match p.1.touchShortcut with
        | some t =>
          if e.hasPressed then
            let q := nst p.1 (beh t.action)
            (q.1, p.2.1 ++ ACall.beginC t.action t.index (some (IEv.touch e)) :: q.2, true)
          else if e.hasReleased then
            (p.1, p.2.1 ++ [ACall.endC t.action (some (IEv.touch e))], true)
          else
            (p.1, p.2.1 ++ [ACall.inputEv t.action], true)
        | none => (p.1, p.2.1, p.2.2)
    else
      if e.hasReleased then
        if decide (s.maxTouchPoints ≤ tpc) then
          let q := fireReadyTouch nst beh { s with maxTouchPoints := tpc } e
          ({ q.1 with bestCandidateTouchEvent := none }, q.2, false)
        else (s, [], false)
      else (s, [], false)
  | Ev.touchEnd e =>
    let s := { s0 with usingTouch := false, maxTouchPoints := 0 }
    let p :=
      if !s.isTouchDragDetected then
        match s.bestCandidateTouchEvent with
        | some be => fireReadyTouch nst beh s be
        | none => (s, [])
      else (s, [])
    let q := tryEndTouch p.1 (IEv.touch e)
    (q.1, p.2 ++ q.2.1, q.2.2)
  | Ev.touchCancel e x y =>
    let s := { s0 with usingTouch := false, maxTouchPoints := 0 }
    let p := if s.runningShortcut.isSome then forceEndRunning s x y else (s, [])
    let q :=
      match p.1.touchShortcut with
      | some t =>
        ({ p.1 with touchShortcut := none },
         [ACall.endC t.action (some (IEv.touch { e with points := p.1.lastTouchPoints })),
          ACall.deactivate t.action t.index])
      | none => (p.1, [])
    (q.1, p.2 ++ q.2, false)
  | Ev.touchResetPointer =>
    let s1 := { s0 with readyShortcut := none }
    let q := tryActivateReady (prepareReady s1)
    (q.1, q.2, false)
  | Ev.gestureBegin =>
    let s := enterNotifier s0
    (exitNotifier s, [], !inRecursion s)
  | Ev.gestureUpdate e =>
    match s0.nativeGestureShortcut with
    | none => runNativeShortcut nst beh s0 e
    | some g => (s0, [ACall.inputEv g.action], true)
  | Ev.gestureEnd e =>
    let p :=
      match s0.nativeGestureShortcut with
      | some g =>
        if !ngMatch g e then
          let r := tryEndNative s0
          (r.1, r.2.1)
        else (s0, [])
      | none => (s0, [])
    ({ p.1 with usingNativeGesture := false }, p.2, true)
  | Ev.lostFocus x y =>
    let s := enterNotifier s0
    let p := if s.runningShortcut.isSome then forceEndRunning s x y else (s, [])
    let q := forceDeactivateAll p.1
    (exitNotifier q.1, p.2 ++ q.2, false)
  | Ev.toolActivated =>
    let s := enterNotifier s0
    let q :=
      if inRecursion s then forceDeactivateAll s
      else if !s.runningShortcut.isSome then tryActivateReady (prepareReady s)
      else (s, [])
    (exitNotifier q.1, q.2, false)
  | Ev.reinit =>
    let s := resetKB (enterNotifier s0)
    let q :=
      if inRecursion s then forceDeactivateAll s
      else if !s.runningShortcut.isSome then tryActivateReady (prepareReady s)
      else (s, [])
    (exitNotifier q.1, q.2, false)
  | Ev.reinitButtons =>
    let s := { enterNotifier s0 with buttons := [] }
    let q :=
      if inRecursion s then forceDeactivateAll s
      else if !s.runningShortcut.isSome then tryActivateReady (prepareReady s)
      else (s, [])
    (exitNotifier q.1, q.2, false)
  | Ev.clearAll =>
    let sr := resetKB s0
    ({ sr with singleActionShortcuts := [], strokeShortcuts := [],
               candidateShortcuts := [], touchShortcuts := [],
               runningShortcut := none, readyShortcut := none }, [], false)
  | Ev.setSuppressActions b =>
    ({ s0 with suppressAllActions := b }, [], false)
  | Ev.addSingle sh =>
    ({ s0 with singleActionShortcuts := s0.singleActionShortcuts ++ [sh] }, [], false)
  | Ev.addStroke sh =>
    ({ s0 with strokeShortcuts := s0.strokeShortcuts ++ [sh] }, [], false)
  | Ev.addTouch sh =>
    ({ s0 with touchShortcuts := s0.touchShortcuts ++ [sh] }, [], false)
  | Ev.addNative sh =>
    ({ s0 with nativeGestureShortcuts := s0.nativeGestureShortcuts ++ [sh] }, [], false)

/-- Run a list of entry-point events through a step function, accumulating
the emitted action calls. -/
def runList (g : MState → Ev → MState × List ACall × Bool) :
    MState → List Ev → MState × List ACall
  | s, [] => (s, [])
  | s, e :: es =>
    let r := g s e
    let r2 := runList g r.1 es
    (r2.1, r.2.1 ++ r2.2)

/-- The matcher's step function at a given re-entrancy fuel: at fuel
`f + 1`, nested entry points triggered by an action's `begin` are
interpreted at fuel `f`. -/
def step (beh : Beh) : Nat → MState → Ev → MState × List ACall × Bool
  | 0, s, _ => (s, [], false)
  | f + 1, s, e => stepCore (fun s1 evs => runList (step beh f) s1 evs) beh s e

/-- The nested interpreter used inside `step` at fuel `f + 1`. -/
def nstOf (beh : Beh) (f : Nat) : MState → List Ev → MState × List ACall :=
  fun s evs => runList (step beh f) s evs

theorem step_succ (beh : Beh) (f : Nat) (s : MState) (e : Ev) :
    step beh (f + 1) s e = stepCore (nstOf beh f) beh s e := rfl

theorem nstOf_nil (beh : Beh) (f : Nat) (s : MState) :
    nstOf beh f s [] = (s, []) := rfl


/-! ### State-shape lemmas for the helpers (no re-entrant behaviour) -/

theorem forceDeactivateAll_fst (s : MState) :
    (forceDeactivateAll s).1 = { s with readyShortcut := none } := by
  obtain ⟨sa, su, st, tt, ng, ke, bu, ru, re, ca, ts, ns, lt, mt, mi, dd, bc, am, sp, ce,
    ut, ug, rc, br⟩ := s
  cases re <;> rfl

theorem prepareReady_fst (s : MState) :
    ∃ c, prepareReady s = { s with candidateShortcuts := c } := by
  obtain ⟨sa, su, st, tt, ng, ke, bu, ru, re, ca, ts, ns, lt, mt, mi, dd, bc, am, sp, ce,
    ut, ug, rc, br⟩ := s
  simp only [prepareReady]
  split
  · exact ⟨_, rfl⟩
  · exact ⟨_, rfl⟩

set_option maxHeartbeats 1000000 in
theorem tryActivateReady_fst (s : MState) :
    ∃ r, (tryActivateReady s).1 = { s with readyShortcut := r } := by
  obtain ⟨sa, su, st, tt, ng, ke, bu, ru, re, ca, ts, ns, lt, mt, mi, dd, bc, am, sp, ce,
    ut, ug, rc, br⟩ := s
  cases re with
  | none =>
    simp only [tryActivateReady]
    split
    · exact ⟨_, rfl⟩
    · exact ⟨_, rfl⟩
  | some r =>
    simp only [tryActivateReady]
    split
    · rename_i good hgood
      refine ⟨if decide (r = good) = true then some r else some good, ?_⟩
      cases hrg : decide (r = good) <;> rfl
    · exact ⟨_, rfl⟩

set_option maxHeartbeats 1000000 in
theorem tryEndRunning_fst (s : MState) (b : Nat) (ev : IEv) :
    ∃ ro rd, (tryEndRunning s b ev).1 =
      { s with runningShortcut := ro, readyShortcut := rd } := by
  obtain ⟨sa, su, st, tt, ng, ke, bu, ru, re, ca, ts, ns, lt, mt, mi, dd, bc, am, sp, ce,
    ut, ug, rc, br⟩ := s
  cases ru with
  | none => exact ⟨_, _, rfl⟩
  | some r =>
    cases re with
    | none =>
      simp only [tryEndRunning, forceDeactivateAll]
      refine ⟨if strokeMatchBegin r ke bu b = true then none else some r, none, ?_⟩
      cases hsb : strokeMatchBegin r ke bu b <;> rfl
    | some rd0 =>
      simp only [tryEndRunning, forceDeactivateAll]
      refine ⟨if strokeMatchBegin r ke bu b = true then none else some r, none, ?_⟩
      cases hsb : strokeMatchBegin r ke bu b <;> rfl

theorem forceEndRunning_fst (s : MState) (x y : Int) :
    ∃ ro rd, (forceEndRunning s x y).1 =
      { s with runningShortcut := ro, readyShortcut := rd } := by
  obtain ⟨sa, su, st, tt, ng, ke, bu, ru, re, ca, ts, ns, lt, mt, mi, dd, bc, am, sp, ce,
    ut, ug, rc, br⟩ := s
  cases ru with
  | none => exact ⟨_, _, rfl⟩
  | some r =>
    cases re with
    | none => exact ⟨none, none, rfl⟩
    | some rd0 => exact ⟨none, none, rfl⟩

theorem tryEndTouch_fst (s : MState) (ev : IEv) :
    ∃ t, (tryEndTouch s ev).1 = { s with touchShortcut := t } := by
  obtain ⟨sa, su, st, tt, ng, ke, bu, ru, re, ca, ts, ns, lt, mt, mi, dd, bc, am, sp, ce,
    ut, ug, rc, br⟩ := s
  cases ts <;> exact ⟨_, rfl⟩

theorem tryEndNative_fst (s : MState) :
    ∃ g, (tryEndNative s).1 = { s with nativeGestureShortcut := g } := by
  obtain ⟨sa, su, st, tt, ng, ke, bu, ru, re, ca, ts, ns, lt, mt, mi, dd, bc, am, sp, ce,
    ut, ug, rc, br⟩ := s
  cases ns <;> exact ⟨_, rfl⟩

theorem setMaxTouchPointEv_fst (s : MState) (e : TouchEv) :
    ∃ m bc1, setMaxTouchPointEv s e =
      { s with maxTouchPoints := m, bestCandidateTouchEvent := bc1 } := by
  obtain ⟨sa, su, st, tt, ng, ke, bu, ru, re, ca, ts, ns, lt, mt, mi, dd, bc, am, sp, ce,
    ut, ug, rc, br⟩ := s
  simp only [setMaxTouchPointEv]
  split <;> exact ⟨_, _, rfl⟩

theorem runSingleImpl_fst (f : Nat) (s : MState) (trig : Trigger) (ev : Option IEv)
    (ks : List Nat) : (runSingleImpl (nstOf noBeh f) noBeh s trig ev ks).1 = s := by
  simp only [runSingleImpl]
  split
  · rfl
  · split <;> rfl

theorem fireReadyTouch_fst (f : Nat) (s : MState) (e : TouchEv) :
    (fireReadyTouch (nstOf noBeh f) noBeh s e).1 = s := by
  simp only [fireReadyTouch]
  split <;> rfl

set_option maxHeartbeats 1000000 in
theorem runReadyShortcut_fst (f : Nat) (s : MState) (b : Nat) (ev : IEv) :
    ∃ ro rd br1, (runReadyShortcut (nstOf noBeh f) noBeh s b ev).1 =
      { s with runningShortcut := ro, readyShortcut := rd, brokenByRecursion := br1 } := by
  obtain ⟨sa, su, st, tt, ng, ke, bu, ru, re, ca, ts, ns, lt, mt, mi, dd, bc, am, sp, ce,
    ut, ug, rc, br⟩ := s
  cases re with
  | none =>
    simp only [runReadyShortcut]
    split
    · exact ⟨_, _, _, rfl⟩
    · exact ⟨_, _, _, rfl⟩
  | some r =>
    simp only [runReadyShortcut]
    split
    · exact ⟨_, _, _, rfl⟩
    · rename_i g hg
      refine ⟨some g, none, 0, ?_⟩
      cases hrg : decide (r = g) <;> rfl

set_option maxHeartbeats 1000000 in
theorem runNativeShortcut_fst (f : Nat) (s : MState) (e : NGEv) :
    ∃ g ug1 br1, (runNativeShortcut (nstOf noBeh f) noBeh s e).1 =
      { s with nativeGestureShortcut := g, usingNativeGesture := ug1,
               brokenByRecursion := br1 } := by
  obtain ⟨sa, su, st, tt, ng, ke, bu, ru, re, ca, ts, ns, lt, mt, mi, dd, bc, am, sp, ce,
    ut, ug, rc, br⟩ := s
  simp only [runNativeShortcut]
  split
  · exact ⟨_, _, _, rfl⟩
  · split
    · exact ⟨_, _, _, rfl⟩
    · exact ⟨_, _, _, rfl⟩

set_option maxHeartbeats 1000000 in
theorem runTouchShortcut_fst (f : Nat) (s : MState) (e : TouchEv) :
    ∃ ro rd t ut1 br1, (runTouchShortcut (nstOf noBeh f) noBeh s e).1 =
      { s with runningShortcut := ro, readyShortcut := rd, touchShortcut := t,
               usingTouch := ut1, brokenByRecursion := br1 } := by
  obtain ⟨sa, su, st, tt, ng, ke, bu, ru, re, ca, ts, ns, lt, mt, mi, dd, bc, am, sp, ce,
    ut, ug, rc, br⟩ := s
  cases ru with
  | none =>
    cases re with
    | none =>
      simp only [runTouchShortcut, tryEndRunning, forceDeactivateAll]
      split
      · exact ⟨_, _, _, _, _, rfl⟩
      · split <;> exact ⟨_, _, _, _, _, rfl⟩
    | some r1 =>
      simp only [runTouchShortcut, tryEndRunning, forceDeactivateAll]
      split
      · exact ⟨_, _, _, _, _, rfl⟩
      · split <;> exact ⟨_, _, _, _, _, rfl⟩
  | some r0 =>
    cases re with
    | none =>
      simp only [runTouchShortcut, tryEndRunning, forceDeactivateAll]
      split
      · exact ⟨_, _, _, _, _, rfl⟩
      · split
        · exact ⟨_, _, _, _, _, rfl⟩
        · rename_i g hg
          refine ⟨if strokeMatchBegin r0 ke bu 1 = true then none else some r0, none,
            some g, true, 0, ?_⟩
          cases hsb : strokeMatchBegin r0 ke bu 1 <;> rfl
    | some r1 =>
      simp only [runTouchShortcut, tryEndRunning, forceDeactivateAll]
      split
      · exact ⟨_, _, _, _, _, rfl⟩
      · split
        · exact ⟨_, _, _, _, _, rfl⟩
        · rename_i g hg
          refine ⟨if strokeMatchBegin r0 ke bu 1 = true then none else some r0, none,
            some g, true, 0, ?_⟩
          cases hsb : strokeMatchBegin r0 ke bu 1 <;> rfl

/-! ### Claim C9 — clearShortcuts -/

/-- C9 (amended): `clearShortcuts` resets the key/button models, empties the
single-action, stroke and touch catalogues and the candidate list, and nulls
the running and ready stroke slots — but it leaves the native-gesture
catalogue, the suppressed-singleton set, the running touch slot and the
running native-gesture slot untouched, so a later native-gesture event can
still invoke a previously registered shortcut's action. -/
theorem claim_C9_amended (f : Nat) (s : MState) :
    step noBeh (f + 1) s Ev.clearAll =
      ({ s with keys := [], buttons := [], singleActionShortcuts := [],
                strokeShortcuts := [], candidateShortcuts := [], touchShortcuts := [],
                runningShortcut := none, readyShortcut := none }, [], false) := rfl

/-- The native-gesture shortcut used by the C9 counterexample. -/
def cexNG9 : NGShortcut := { kind := 3, group := 1, priority := 1, action := 9, index := 2 }

/-- The run used by the C9 counterexample: register a native-gesture
shortcut, enter the canvas, call `clearShortcuts`, then deliver a matching
native-gesture event. -/
def cexRun9 : MState × List ACall :=
  runList (step noBeh 4) initState
    [Ev.addNative cexNG9, Ev.enterEvent, Ev.clearAll, Ev.gestureUpdate { kind := 3 }]

/-- C9 counterexample: after `clearShortcuts` the native-gesture catalogue
still holds the registered shortcut, and a subsequent native-gesture event
invokes its action (`activate` and `begin` are emitted) — so the claim that
all four catalogues are emptied and no later event can invoke a previously
registered shortcut's action is false. -/
theorem claim_C9_cex :
    cexRun9.1.nativeGestureShortcuts = [cexNG9] ∧
    cexRun9.1.nativeGestureShortcut = some cexNG9 ∧
    cexRun9.2 = [ACall.activate 9 2, ACall.beginC 9 2 none] := by decide

/-! ### Claim C10 — buttons ignored while touching -/

/-- C10: while a touch or native-gesture interaction is in progress
(`isUsingTouch`), `buttonPressed` and `buttonReleased` return `false`,
emit no action calls, and change nothing except the broken-by-recursion
counter bumped by the `RecursionNotifier` (the recursion depth itself is
restored on exit). -/
theorem claim_C10 (f : Nat) (s : MState) (b : Nat) (iev : IEv)
    (h : usingTouchNow s = true) :
    step noBeh (f + 1) s (Ev.buttonPressed b iev) =
      ({ s with brokenByRecursion := s.brokenByRecursion + 1 }, [], false) ∧
    step noBeh (f + 1) s (Ev.buttonReleased b iev) =
      ({ s with brokenByRecursion := s.brokenByRecursion + 1 }, [], false) := by
  obtain ⟨sa, su, st, tt, ng, ke, bu, ru, re, ca, ts, ns, lt, mt, mi, dd, bc, am, sp, ce,
    ut, ug, rc, br⟩ := s
  simp only [usingTouchNow] at h
  refine ⟨?_, ?_⟩ <;>
    · rw [step_succ]
      simp only [stepCore, enterNotifier, exitNotifier, usingTouchNow, h,
        Nat.add_sub_cancel]
      rfl

/-- The state used by the C10 witness: a touch interaction in progress. -/
def witState10 : MState := { initState with usingTouch := true }

/-- C10 witness at a concrete state. -/
theorem claim_C10_witness :
    usingTouchNow witState10 = true ∧
    step noBeh 1 witState10 (Ev.buttonPressed 1 (IEv.raw 0)) =
      ({ witState10 with brokenByRecursion := 1 }, [], false) :=
  ⟨by decide, (claim_C10 0 witState10 1 (IEv.raw 0) (by decide)).1⟩

/-! ### Claim C6 — prepareReadyShortcuts -/

/-- C6 (amended): when actions are not suppressed, `prepareReadyShortcuts`
sets the candidate list to exactly the registered stroke shortcuts whose
`matchReady(held keys, held buttons)` holds, in registration order; when
actions are suppressed (`suppressAllActions` set or the cursor not entered),
the candidate list is left empty regardless of which shortcuts match. -/
theorem claim_C6_amended (s : MState) :
    (actionsSuppressed s = false →
      (prepareReady s).candidateShortcuts =
        s.strokeShortcuts.filter (fun sh => strokeMatchReady sh s.keys s.buttons)) ∧
    (actionsSuppressed s = true → (prepareReady s).candidateShortcuts = []) := by
  constructor <;> intro h <;>
    · simp only [actionsSuppressed] at h
      simp only [prepareReady, actionsSuppressed, h]
      rfl

/-- The stroke shortcut used by the C6 counterexample. -/
def cexStroke6 : StrokeShortcut :=
  { keys := [5], buttons := [1], group := 1, priority := 1, action := 4, index := 0 }

/-- The state used by the C6 counterexample: key 5 held, one matching stroke
shortcut registered, cursor not entered (the freshly constructed matcher has
`cursorEntered = false`, so actions are suppressed). -/
def cexState6 : MState := { initState with strokeShortcuts := [cexStroke6], keys := [5] }

/-- C6 counterexample: in a suppressed state, `prepareReadyShortcuts` leaves
the candidate list empty even though a registered stroke shortcut satisfies
`matchReady` — so the claim that the postcondition holds for every matcher
state, including suppressed ones, is false. -/
theorem claim_C6_cex :
    (prepareReady cexState6).candidateShortcuts = [] ∧
    cexState6.strokeShortcuts.filter
      (fun sh => strokeMatchReady sh cexState6.keys cexState6.buttons) = [cexStroke6] := by
  decide

/-- The state used by the C6 witness: as the counterexample but with the
cursor entered, so actions are not suppressed. -/
def witState6 : MState := { cexState6 with cursorEntered := true }

/-- C6 witness at a concrete unsuppressed state. -/
theorem claim_C6_witness :
    actionsSuppressed witState6 = false ∧
    (prepareReady witState6).candidateShortcuts =
      witState6.strokeShortcuts.filter
        (fun sh => strokeMatchReady sh witState6.keys witState6.buttons) :=
  ⟨by decide, (claim_C6_amended witState6).1 (by decide)⟩

/-! ### Claim C3 — cancellation entry points -/

/-- C3 (amended): of the four cancellation entry points, only two terminate
in-flight actions, and none terminates a running native gesture:
`lostFocusEvent` force-ends a running stroke (`end` with a fake release
event, then `deactivate`) and nulls the stroke slot; `touchCancelEvent`
force-ends a running stroke and ends-then-deactivates a running touch
shortcut, nulling both slots; `reinitialize` and `reinitializeButtons`,
called while a stroke is running, merely clear the key/button models and
invoke no action method at all, leaving the running slot set. -/
theorem claim_C3_amended (f : Nat) (s : MState) (r : StrokeShortcut) (t : TouchShortcut)
    (e : TouchEv) (x y : Int)
    (hrun : s.runningShortcut = some r) (hrd : s.readyShortcut = none)
    (hrc : s.recursiveCounter = 0) (ht : s.touchShortcut = some t) :
    step noBeh (f + 1) s (Ev.lostFocus x y) =
      ({ s with runningShortcut := none,
                brokenByRecursion := s.brokenByRecursion + 1 },
       [ACall.endC r.action (some (IEv.fake x y)), ACall.deactivate r.action r.index],
       false) ∧
    step noBeh (f + 1) s (Ev.touchCancel e x y) =
      ({ s with usingTouch := false, maxTouchPoints := 0, runningShortcut := none,
                touchShortcut := none },
       [ACall.endC r.action (some (IEv.fake x y)), ACall.deactivate r.action r.index,
        ACall.endC t.action (some (IEv.touch { e with points := s.lastTouchPoints })),
        ACall.deactivate t.action t.index],
       false) ∧
    step noBeh (f + 1) s Ev.reinit =
      ({ s with keys := [], buttons := [],
                brokenByRecursion := s.brokenByRecursion + 1 }, [], false) ∧
    step noBeh (f + 1) s Ev.reinitButtons =
      ({ s with buttons := [],
                brokenByRecursion := s.brokenByRecursion + 1 }, [], false) := by
  obtain ⟨sa, su, st, tt, ng, ke, bu, ru, re, ca, ts, ns, lt, mt, mi, dd, bc, am, sp, ce,
    ut, ug, rc, br⟩ := s
  simp only at hrun hrd hrc ht
  subst hrun hrd hrc ht
  exact ⟨rfl, rfl, rfl, rfl⟩

/-- The stroke shortcut used by the C3 counterexample. -/
def cexStroke3 : StrokeShortcut :=
  { keys := [5], buttons := [1], group := 1, priority := 1, action := 4, index := 0 }

/-- The run used by the C3 counterexample: arm and begin a stroke, then call
`reinitialize` while it is running. -/
def cexRun3 : MState × List ACall :=
  runList (step noBeh 4) initState
    [Ev.addStroke cexStroke3, Ev.enterEvent, Ev.keyPressed 5,
     Ev.buttonPressed 1 (IEv.raw 0), Ev.reinit]

/-- C3 counterexample: `reinitialize` called while a stroke shortcut is
running emits no `end` and no `deactivate` (the whole run's trace contains
only the `activate` and `begin` of the stroke) and leaves the running slot
non-null — so the claim that every cancellation entry point terminates the
in-flight action and nulls the slot is false. -/
theorem claim_C3_cex :
    cexRun3.1.runningShortcut = some cexStroke3 ∧
    cexRun3.2 = [ACall.activate 4 0, ACall.beginC 4 0 (some (IEv.raw 0))] := by decide

/-- The touch shortcut used by the C3 witness. -/
def witTouch3 : TouchShortcut :=
  { minPoints := 2, maxPoints := 3, isDrag := true, group := 1, priority := 1,
    action := 6, index := 1 }

/-- The state used by the C3 witness: a stroke and a touch shortcut running. -/
def witState3 : MState :=
  { initState with runningShortcut := some cexStroke3, touchShortcut := some witTouch3 }

/-- C3 witness: the amended claim applied at a concrete state, for the
`reinitialize` part. -/
theorem claim_C3_witness :
    (witState3.runningShortcut = some cexStroke3 ∧ witState3.readyShortcut = none ∧
     witState3.recursiveCounter = 0 ∧ witState3.touchShortcut = some witTouch3) ∧
    step noBeh 1 witState3 Ev.reinit =
      ({ witState3 with keys := [], buttons := [], brokenByRecursion := 1 }, [], false) :=
  ⟨⟨rfl, rfl, rfl, rfl⟩,
    (claim_C3_amended 0 witState3 cexStroke3 witTouch3
      { points := [], hasPressed := false, hasReleased := false } 0 0
      rfl rfl rfl rfl).2.2.1⟩

/-! ### Characterisation of the candidate folds -/

theorem pickTrue_some_iff (p : α → Nat) (l : List α) :
    ∀ a w, pickCondMaxBy (fun _ => true) p (some a) l = some w ↔
      ((w = a ∧ ∀ u ∈ l, p u ≤ p a) ∨
       ∃ l1 l2, l = l1 ++ w :: l2 ∧ p a < p w ∧ (∀ u ∈ l1, p u < p w) ∧
         ∀ u ∈ l2, p u ≤ p w) := by
  induction l with
  | nil =>
    intro a w
    constructor
    · intro h
      exact Or.inl ⟨(Option.some.inj h).symm, fun u hu => absurd hu (List.not_mem_nil u)⟩
    · rintro (⟨rfl, -⟩ | ⟨l1, l2, hl, -, -, -⟩)
      · rfl
      · exact absurd hl (by simp)
  | cons x xs ih =>
    intro a w
    have hstep : pickCondMaxBy (fun _ => true) p (some a) (x :: xs) =
        pickCondMaxBy (fun _ => true) p (if p a < p x then some x else some a) xs := by
      simp only [pickCondMaxBy, Bool.true_and]
      congr 1
      by_cases h : p a < p x
      · simp [h, Nat.lt_iff_add_one_le]
      · simp [h]
    rw [hstep]
    by_cases hax : p a < p x
    · rw [if_pos hax, ih x w]
      constructor
      · rintro (⟨rfl, hall⟩ | ⟨l1, l2, hl, hx, h1, h2⟩)
        · exact Or.inr ⟨[], xs, rfl, hax, by simp, hall⟩
        · refine Or.inr ⟨x :: l1, l2, by rw [hl]; rfl, lt_trans hax hx, ?_, h2⟩
          intro u hu
          rcases List.mem_cons.mp hu with rfl | hu
          · exact hx
          · exact h1 u hu
      · rintro (⟨rfl, hall⟩ | ⟨l1, l2, hl, haw, h1, h2⟩)
        · exact absurd (hall x (List.mem_cons_self x xs)) (not_le.mpr hax)
        · cases l1 with
          | nil =>
            simp only [List.nil_append, List.cons.injEq] at hl
            obtain ⟨rfl, rfl⟩ := hl
            exact Or.inl ⟨rfl, h2⟩
          | cons y l1' =>
            simp only [List.cons_append, List.cons.injEq] at hl
            obtain ⟨rfl, hl'⟩ := hl
            exact Or.inr ⟨l1', l2, hl', h1 x (List.mem_cons_self x l1'),
              fun u hu => h1 u (List.mem_cons_of_mem _ hu), h2⟩
    · rw [if_neg hax, ih a w]
      have hxa : p x ≤ p a := not_lt.mp hax
      constructor
      · rintro (⟨rfl, hall⟩ | ⟨l1, l2, hl, haw, h1, h2⟩)
        · refine Or.inl ⟨rfl, ?_⟩
          intro u hu
          rcases List.mem_cons.mp hu with rfl | hu
          · exact hxa
          · exact hall u hu
        · refine Or.inr ⟨x :: l1, l2, by rw [hl]; rfl, haw, ?_, h2⟩
          intro u hu
          rcases List.mem_cons.mp hu with rfl | hu
          · exact lt_of_le_of_lt hxa haw
          · exact h1 u hu
      · rintro (⟨rfl, hall⟩ | ⟨l1, l2, hl, haw, h1, h2⟩)
        · exact Or.inl ⟨rfl, fun u hu => hall u (List.mem_cons_of_mem _ hu)⟩
        · cases l1 with
          | nil =>
            simp only [List.nil_append, List.cons.injEq] at hl
            obtain ⟨rfl, rfl⟩ := hl
            exact absurd haw hax
          | cons y l1' =>
            simp only [List.cons_append, List.cons.injEq] at hl
            obtain ⟨rfl, hl'⟩ := hl
            exact Or.inr ⟨l1', l2, hl', haw,
              fun u hu => h1 u (List.mem_cons_of_mem _ hu), h2⟩

theorem pickTrue_none_iff (p : α → Nat) (l : List α) (w : α) :
    pickCondMaxBy (fun _ => true) p none l = some w ↔
      ∃ l1 l2, l = l1 ++ w :: l2 ∧ (∀ u ∈ l1, p u < p w) ∧ ∀ u ∈ l2, p u ≤ p w := by
  cases l with
  | nil =>
    constructor
    · intro h
      exact absurd h (by simp [pickCondMaxBy])
    · rintro ⟨l1, l2, hl, -, -⟩
      exact absurd hl (by simp)
  | cons x xs =>
    have h1 : pickCondMaxBy (fun _ => true) p none (x :: xs) =
        pickCondMaxBy (fun _ => true) p (some x) xs := by
      simp [pickCondMaxBy]
    rw [h1, pickTrue_some_iff]
    constructor
    · rintro (⟨rfl, hall⟩ | ⟨l1, l2, hl, hx, hlt, hle⟩)
      · exact ⟨[], xs, rfl, by simp, hall⟩
      · refine ⟨x :: l1, l2, by rw [hl]; rfl, ?_, hle⟩
        intro u hu
        rcases List.mem_cons.mp hu with rfl | hu
        · exact hx
        · exact hlt u hu
    · rintro ⟨l1, l2, hl, hlt, hle⟩
      cases l1 with
      | nil =>
        simp only [List.nil_append, List.cons.injEq] at hl
        obtain ⟨rfl, rfl⟩ := hl
        exact Or.inl ⟨rfl, hle⟩
      | cons y l1' =>
        simp only [List.cons_append, List.cons.injEq] at hl
        obtain ⟨rfl, hl'⟩ := hl
        exact Or.inr ⟨l1', l2, hl', hlt x (List.mem_cons_self x l1'),
          fun u hu => hlt u (List.mem_cons_of_mem _ hu), hle⟩

theorem pickCondMaxBy_eq_filter (cond : α → Bool) (p : α → Nat) :
    ∀ (l : List α) (acc : Option α),
      pickCondMaxBy cond p acc l =
        pickCondMaxBy (fun _ => true) p acc (l.filter cond) := by
  intro l
  induction l with
  | nil => intro acc; rfl
  | cons x xs ih =>
    intro acc
    by_cases hc : cond x = true
    · simp only [pickCondMaxBy, hc, Bool.true_and, List.filter_cons_of_pos hc]
      exact ih _
    · have hc' : cond x = false := by simpa using hc
      simp only [pickCondMaxBy, hc', Bool.false_and, Bool.false_eq_true, if_false,
        List.filter_cons_of_neg (by simpa using hc)]
      exact ih acc

theorem pickCondMaxBy_mem_cond (cond : α → Bool) (p : α → Nat) (l : List α) (w : α)
    (h : pickCondMaxBy cond p none l = some w) : w ∈ l ∧ cond w = true := by
  rw [pickCondMaxBy_eq_filter, pickTrue_none_iff] at h
  obtain ⟨l1, l2, hl, -, -⟩ := h
  have hw : w ∈ l.filter cond := by
    rw [hl]
    exact List.mem_append_right _ (List.mem_cons_self w l2)
  exact ⟨(List.mem_filter.mp hw).1, (List.mem_filter.mp hw).2⟩

/-! ### Counting activate / deactivate calls in a trace -/

/-- Number of `activate` calls to a given action id in a trace. -/
def countAct : List ACall → Nat → Nat
  | [], _ => 0
  | ACall.activate a' _ :: tr, a => (if a' = a then 1 else 0) + countAct tr a
  | _ :: tr, a => countAct tr a

/-- Number of `deactivate` calls to a given action id in a trace. -/
def countDeact : List ACall → Nat → Nat
  | [], _ => 0
  | ACall.deactivate a' _ :: tr, a => (if a' = a then 1 else 0) + countDeact tr a
  | _ :: tr, a => countDeact tr a

theorem countAct_append (l1 l2 : List ACall) (a : Nat) :
    countAct (l1 ++ l2) a = countAct l1 a + countAct l2 a := by
  induction l1 with
  | nil => simp [countAct]
  | cons c tr ih =>
    cases c <;> (simp [countAct, ih]; try omega)

theorem countDeact_append (l1 l2 : List ACall) (a : Nat) :
    countDeact (l1 ++ l2) a = countDeact l1 a + countDeact l2 a := by
  induction l1 with
  | nil => simp [countDeact]
  | cons c tr ih =>
    cases c <;> (simp [countDeact, ih]; try omega)

/-! ### Claim C5 — the single-action dispatch algorithm -/

/-- C5: with actions not suppressed, `tryRunSingleActionShortcutImpl`
considers exactly the registered single-action shortcuts that are not
suppressed, are available under the current group mask and match the key
state and trigger; its winner is the first registered shortcut of maximal
priority among them (everything registered before it is of strictly lower
priority, everything after of lower-or-equal); the winner's action receives
`begin(shortcut_index, event)` immediately followed by `end(null)`, and the
call returns true iff a winner exists. -/
theorem claim_C5 (f : Nat) (s : MState) (trig : Trigger) (ev : Option IEv)
    (keysState : List Nat) (hns : s.suppressAllActions = false) :
    (∀ w, singleGood s trig keysState = some w ↔
      ∃ l1 l2,
        s.singleActionShortcuts.filter
            (fun sh => !inSet sh s.suppressedSingle &&
              availableUnder sh.group s.actionGroupMask &&
              singleMatch sh keysState trig) = l1 ++ w :: l2 ∧
        (∀ u ∈ l1, u.priority < w.priority) ∧ ∀ u ∈ l2, u.priority ≤ w.priority) ∧
    (runSingleImpl (nstOf noBeh f) noBeh s trig ev keysState).2.1 =
      (match singleGood s trig keysState with
       | some w => [ACall.beginC w.action w.index ev, ACall.endC w.action none]
       | none => []) ∧
    (runSingleImpl (nstOf noBeh f) noBeh s trig ev keysState).2.2 =
      (singleGood s trig keysState).isSome := by
  refine ⟨?_, ?_, ?_⟩
  · intro w
    rw [singleGood, pickCondMaxBy_eq_filter, pickTrue_none_iff]
  · simp only [runSingleImpl, actionsSuppressedIgnoreFocus, hns, Bool.false_eq_true,
      if_false]
    cases h : singleGood s trig keysState with
    | none => rfl
    | some w => rfl
  · simp only [runSingleImpl, actionsSuppressedIgnoreFocus, hns, Bool.false_eq_true,
      if_false]
    cases h : singleGood s trig keysState with
    | none => rfl
    | some w => rfl

/-- The shortcut used by the C5 witness. -/
def witSingle5 : SingleShortcut :=
  { keys := [5], trigger := Trigger.key 7, group := 1, priority := 2, action := 11,
    index := 4 }

/-- The state used by the C5 witness. -/
def witState5 : MState := { initState with singleActionShortcuts := [witSingle5] }

/-- C5 witness at a concrete state: the single registered matching shortcut
wins, its action receives `begin` then `end(null)`, and the call returns
true. -/
theorem claim_C5_witness :
    witState5.suppressAllActions = false ∧
    (singleGood witState5 (Trigger.key 7) [5] = some witSingle5 ↔
      ∃ l1 l2,
        witState5.singleActionShortcuts.filter
            (fun sh => !inSet sh witState5.suppressedSingle &&
              availableUnder sh.group witState5.actionGroupMask &&
              singleMatch sh [5] (Trigger.key 7)) = l1 ++ witSingle5 :: l2 ∧
        (∀ u ∈ l1, u.priority < witSingle5.priority) ∧
        ∀ u ∈ l2, u.priority ≤ witSingle5.priority) ∧
    (runSingleImpl (nstOf noBeh 0) noBeh witState5 (Trigger.key 7) none [5]).2.1 =
      (match singleGood witState5 (Trigger.key 7) [5] with
       | some w => [ACall.beginC w.action w.index none, ACall.endC w.action none]
       | none => []) :=
  ⟨rfl, (claim_C5 0 witState5 (Trigger.key 7) none [5] rfl).1 witSingle5,
    (claim_C5 0 witState5 (Trigger.key 7) none [5] rfl).2.1⟩

/-! ### Claim C7 — autorepeat -/

theorem inSet_iff_mem [DecidableEq α] (x : α) (l : List α) : inSet x l = true ↔ x ∈ l := by
  simp [inSet, List.any_eq_true]

theorem inSet_removeS_self (k : Nat) (l : List Nat) : inSet k (removeS k l) = false := by
  cases h : inSet k (removeS k l)
  · rfl
  · exfalso
    have hm := (inSet_iff_mem k (removeS k l)).mp h
    have hp := (List.mem_filter.mp hm).2
    simp at hp

theorem eqSet_subset_left (a b : List Nat) (h : eqSet a b = true) : subsetS a b = true := by
  simp only [eqSet, Bool.and_eq_true] at h
  exact h.1

theorem subsetS_not_mem (a b : List Nat) (x : Nat) (hs : subsetS a b = true)
    (hb : inSet x b = false) : inSet x a = false := by
  cases h : inSet x a
  · rfl
  · exfalso
    have hxa := (inSet_iff_mem x a).mp h
    simp only [subsetS, List.all_eq_true] at hs
    have hxb := hs x hxa
    rw [hb] at hxb
    exact Bool.noConfusion hxb

/-- C7 (amended): `autoRepeatedKeyPressed(k)` never invokes `begin` on a
single-action shortcut whose key set contains `k`: the autorepeating key is
removed from the matched key state, so any shortcut fired by the autorepeat
entry point has a key set not containing `k`.  (A shortcut whose trigger is
`k` and whose key set equals the held keys minus `k` does re-fire — see the
counterexample — so the claim as stated is false.) -/
theorem claim_C7_amended (f : Nat) (s : MState) (k : Nat) (c : ACall)
    (hc : c ∈ (step noBeh (f + 1) s (Ev.autoRepeatKey k)).2.1)
    (a i : Nat) (e : Option IEv) (hb : c = ACall.beginC a i e) :
    ∃ sh, sh ∈ s.singleActionShortcuts ∧ sh.action = a ∧ sh.index = i ∧
      inSet k sh.keys = false := by
  subst hb
  rw [step_succ] at hc
  simp only [stepCore] at hc
  split at hc
  · simp only [forceDeactivateAll] at hc
    split at hc <;> simp at hc
  · split at hc
    · simp only [runSingleImpl] at hc
      split at hc
      · simp at hc
      · split at hc
        · rename_i g hg
          simp only [noBeh, nstOf_nil] at hc
          have hmem := pickCondMaxBy_mem_cond _ _ _ _ hg
          obtain ⟨hgm, hgc⟩ := hmem
          simp only [Bool.and_eq_true] at hgc
          obtain ⟨⟨-, -⟩, hmatch⟩ := hgc
          simp only [singleMatch, Bool.and_eq_true] at hmatch
          have hsub := eqSet_subset_left _ _ hmatch.1
          have hnk : inSet k g.keys = false :=
            subsetS_not_mem _ _ _ hsub (inSet_removeS_self k _)
          simp only [List.cons_append, List.nil_append, List.mem_cons,
            List.mem_singleton] at hc
          rcases hc with hc | hc
          · obtain ⟨ha, hi, -⟩ := ACall.beginC.inj hc
            exact ⟨g, hgm, ha.symm, hi.symm, hnk⟩
          · exact absurd hc (by simp)
        · simp at hc
    · simp at hc

/-- The shortcut used by the C7 counterexample: triggered by key 5 with an
empty key set. -/
def cexSingle7 : SingleShortcut :=
  { keys := [], trigger := Trigger.key 5, group := 1, priority := 1, action := 8,
    index := 3 }

/-- The state used by the C7 counterexample: key 5 held. -/
def cexState7 : MState :=
  { initState with singleActionShortcuts := [cexSingle7], keys := [5] }

/-- C7 counterexample: with key 5 held, `autoRepeatedKeyPressed(5)` fires
`begin` on a single-action shortcut whose trigger is 5 (its key set is the
held keys minus the autorepeating key) — so the claim that the autorepeat
entry point never fires a shortcut triggered by the autorepeating key while
it is held is false. -/
theorem claim_C7_cex :
    inSet 5 cexState7.keys = true ∧
    (step noBeh 1 cexState7 (Ev.autoRepeatKey 5)).2.1 =
      [ACall.beginC 8 3 none, ACall.endC 8 none] := by decide

/-- C7 witness: the amended claim applied at the counterexample state. -/
theorem claim_C7_witness :
    (ACall.beginC 8 3 none ∈ (step noBeh 1 cexState7 (Ev.autoRepeatKey 5)).2.1) ∧
    ∃ sh, sh ∈ cexState7.singleActionShortcuts ∧ sh.action = 8 ∧ sh.index = 3 ∧
      inSet 5 sh.keys = false :=
  ⟨by decide,
    claim_C7_amended 0 cexState7 5 (ACall.beginC 8 3 none) (by decide) 8 3 none rfl⟩

/-! ### Claim C4 — broken-by-recursion recovery -/

/-- C4 (amended): whenever the `RecursionGuard` around the winning action's
`begin` reports broken-by-recursion — in the stroke, touch or native-gesture
start path — the matcher calls that action's `end`, clears the corresponding
running slot, and calls `forceDeactivateAllActions`, which deactivates only
a *ready* stroke shortcut.  On the stroke and touch paths the ready slot is
null before `begin` (consumed, or cleared with its own deactivate), so
provided the nested re-entrant run issued no `deactivate` for the action and
left no ready shortcut, no `deactivate` is issued for it at all; on the
native-gesture path the ready slot is *not* cleared before `begin`, so
`forceDeactivateAllActions` deactivates exactly whichever ready stroke
shortcut the nested run left — still never the running action itself, so the
running action's `deactivate` is again dropped whenever the nested run
issued none and left no ready shortcut of the same action. -/
theorem claim_C4_amended :
    (∀ (f : Nat) (beh : Beh) (s : MState) (b : Nat) (iev : IEv) (g : StrokeShortcut),
      pickCondMaxBy
          (fun sh => availableUnder sh.group s.actionGroupMask &&
            strokeMatchBegin sh s.keys s.buttons b)
          StrokeShortcut.priority none s.candidateShortcuts = some g →
      s.readyShortcut = none →
      0 < (nstOf beh f { s with runningShortcut := some g, brokenByRecursion := 0 }
          (beh g.action)).1.brokenByRecursion →
      (nstOf beh f { s with runningShortcut := some g, brokenByRecursion := 0 }
          (beh g.action)).1.readyShortcut = none →
      countDeact (nstOf beh f { s with runningShortcut := some g, brokenByRecursion := 0 }
          (beh g.action)).2 g.action = 0 →
      (runReadyShortcut (nstOf beh f) beh s b iev).1.runningShortcut = none ∧
      (runReadyShortcut (nstOf beh f) beh s b iev).1.readyShortcut = none ∧
      (runReadyShortcut (nstOf beh f) beh s b iev).2.1 =
        ACall.activate g.action g.index :: ACall.beginC g.action g.index (some iev) ::
          (nstOf beh f { s with runningShortcut := some g, brokenByRecursion := 0 }
            (beh g.action)).2 ++
          [ACall.endC g.action (some iev)] ∧
      countDeact (runReadyShortcut (nstOf beh f) beh s b iev).2.1 g.action = 0) ∧
    (∀ (f : Nat) (beh : Beh) (s : MState) (e : TouchEv) (g : TouchShortcut),
      actionsSuppressed s = false →
      matchTouch s e = some g →
      s.runningShortcut = none →
      s.readyShortcut = none →
      0 < (nstOf beh f { s with
          touchShortcut := some g, usingTouch := true, brokenByRecursion := 0 } (beh g.action)).1.brokenByRecursion →
      (nstOf beh f { s with
          touchShortcut := some g, usingTouch := true, brokenByRecursion := 0 } (beh g.action)).1.readyShortcut = none →
      countDeact (nstOf beh f { s with
          touchShortcut := some g, usingTouch := true, brokenByRecursion := 0 } (beh g.action)).2 g.action = 0 →
      (runTouchShortcut (nstOf beh f) beh s e).1.touchShortcut = none ∧
      (runTouchShortcut (nstOf beh f) beh s e).1.readyShortcut = none ∧
      (runTouchShortcut (nstOf beh f) beh s e).2.1 =
        ACall.activate g.action g.index ::
          ACall.beginC g.action g.index (some (IEv.touch e)) ::
          (nstOf beh f { s with
          touchShortcut := some g, usingTouch := true, brokenByRecursion := 0 } (beh g.action)).2 ++
          [ACall.endC g.action (some (IEv.touch e))] ∧
      countDeact (runTouchShortcut (nstOf beh f) beh s e).2.1 g.action = 0) ∧
    (∀ (f : Nat) (beh : Beh) (s : MState) (e : NGEv) (g : NGShortcut),
      actionsSuppressed s = false →
      pickCondMaxBy (fun sh => ngMatch sh e) NGShortcut.priority none
          s.nativeGestureShortcuts = some g →
      0 < (nstOf beh f { s with
          nativeGestureShortcut := some g, usingNativeGesture := true, brokenByRecursion := 0 }
          (beh g.action)).1.brokenByRecursion →
      countDeact (nstOf beh f { s with
          nativeGestureShortcut := some g, usingNativeGesture := true, brokenByRecursion := 0 }
          (beh g.action)).2 g.action = 0 →
      (runNativeShortcut (nstOf beh f) beh s e).1.nativeGestureShortcut = none ∧
      (runNativeShortcut (nstOf beh f) beh s e).1.readyShortcut = none ∧
      (runNativeShortcut (nstOf beh f) beh s e).2.1 =
        ACall.activate g.action g.index :: ACall.beginC g.action g.index none ::
          (nstOf beh f { s with
          nativeGestureShortcut := some g, usingNativeGesture := true, brokenByRecursion := 0 } (beh g.action)).2 ++
          ACall.endC g.action none ::
          (match (nstOf beh f { s with
              nativeGestureShortcut := some g, usingNativeGesture := true, brokenByRecursion := 0 }
              (beh g.action)).1.readyShortcut with
           | some r => [ACall.deactivate r.action r.index]
           | none => []) ∧
      ((∀ r, (nstOf beh f { s with
          nativeGestureShortcut := some g, usingNativeGesture := true, brokenByRecursion := 0 }
          (beh g.action)).1.readyShortcut = some r → r.action ≠ g.action) →
        countDeact (runNativeShortcut (nstOf beh f) beh s e).2.1 g.action = 0)) := by
  refine ⟨?_, ?_, ?_⟩
  · intro f beh s b iev g hpick hrd hbroken hqrd hqd
    simp only [hrd] at hbroken hqrd hqd
    simp only [runReadyShortcut, hpick, hrd]
    rw [if_pos (decide_eq_true hbroken)]
    simp only [forceDeactivateAll, hqrd]
    refine ⟨?_, ?_, ?_, ?_⟩ <;> simp [countDeact, countDeact_append, hqd, hqrd]
  · intro f beh s e g hsup hpick hrun hrd hbroken hqrd hqd
    simp only [hrun, hrd] at hbroken hqrd hqd
    simp only [runTouchShortcut, hpick, hsup, Bool.false_eq_true, if_false, hrun, hrd]
    rw [if_pos (decide_eq_true hbroken)]
    simp only [forceDeactivateAll, hqrd]
    refine ⟨?_, ?_, ?_, ?_⟩ <;>
      simp [countDeact, countDeact_append, hqd, hqrd, hrun, hrd]
  · intro f beh s e g hsup hpick hbroken hqd
    simp only [runNativeShortcut, hpick, hsup, Bool.false_eq_true, if_false]
    rw [if_pos (decide_eq_true hbroken)]
    cases hq : (nstOf beh f { s with
          nativeGestureShortcut := some g, usingNativeGesture := true, brokenByRecursion := 0 }
        (beh g.action)).1.readyShortcut with
    | none =>
      simp only [forceDeactivateAll, hq]
      refine ⟨?_, ?_, ?_, ?_⟩ <;>
        simp [countDeact, countDeact_append, hqd, hq]
    | some r =>
      simp only [forceDeactivateAll, hq]
      refine ⟨?_, ?_, ?_, ?_⟩
      · simp
      · simp
      · simp
      · intro h
        have hne := h r rfl
        simp [countDeact, countDeact_append, hqd, hne]

/-- The stroke shortcut used by the C4 counterexample. -/
def cexStroke4 : StrokeShortcut :=
  { keys := [5], buttons := [1], group := 1, priority := 1, action := 7, index := 0 }

/-- The behaviour used by the C4 counterexample: action 7's `begin`
re-enters the matcher with a key press. -/
def cexBeh4 : Beh := fun a => if a = 7 then [Ev.keyPressed 9] else []

/-- The run used by the C4 counterexample: arm the stroke, then press its
button; the action's `begin` re-enters the matcher, so the guard reports
broken-by-recursion. -/
def cexRun4 : MState × List ACall :=
  runList (step cexBeh4 3) initState
    [Ev.addStroke cexStroke4, Ev.enterEvent, Ev.keyPressed 5,
     Ev.buttonPressed 1 (IEv.raw 0)]

/-- C4 counterexample: in a run where the guard reports broken-by-recursion
after `begin`, the running slot is cleared and the action receives `end`,
but its `deactivate` is never called (the whole trace is exactly
`activate, begin, end`) — so the claim that the matcher calls the running
action's `end` *and* `deactivate` is false. -/
theorem claim_C4_cex :
    cexRun4.2 = [ACall.activate 7 0, ACall.beginC 7 0 (some (IEv.raw 0)),
                 ACall.endC 7 (some (IEv.raw 0))] ∧
    cexRun4.1.runningShortcut = none ∧
    countDeact cexRun4.2 7 = 0 := by decide

/-- The state used by the C4 stroke witness: the candidate list holds the
stroke shortcut, one level of recursion depth (inside `buttonPressed`). -/
def witState4 : MState :=
  { initState with candidateShortcuts := [cexStroke4], cursorEntered := true,
                   keys := [5], recursiveCounter := 1 }

/-- The touch shortcut of the C4 touch witness (same action id 7, so the
re-entrant behaviour `cexBeh4` applies to it too). -/
def witTouch4 : TouchShortcut :=
  { minPoints := 1, maxPoints := 2, isDrag := false, group := 1, priority := 0,
    action := 7, index := 1 }

/-- The state used by the C4 touch witness. -/
def witState4t : MState :=
  { initState with touchShortcuts := [witTouch4], cursorEntered := true }

/-- The touch event of the C4 touch witness: a one-point tap. -/
def witTE4 : TouchEv :=
  { points := [{ px := 0, py := 0, sx := 0, sy := 0 }], hasPressed := true,
    hasReleased := false }

/-- The native-gesture shortcut of the C4 native witness. -/
def witNG4 : NGShortcut :=
  { kind := 3, group := 1, priority := 0, action := 7, index := 2 }

/-- The state used by the C4 native-gesture witness. -/
def witState4n : MState :=
  { initState with nativeGestureShortcuts := [witNG4], cursorEntered := true }

/-- C4 witness: the amended claim applied on all three start paths, at
concrete states and the re-entrant behaviour `cexBeh4`, whose `begin`
re-enters the matcher with a key press and so breaks the guard. -/
theorem claim_C4_witness :
    ((runReadyShortcut (nstOf cexBeh4 2) cexBeh4 witState4 1 (IEv.raw 0)).1.runningShortcut
        = none ∧
     countDeact (runReadyShortcut (nstOf cexBeh4 2) cexBeh4 witState4 1 (IEv.raw 0)).2.1 7
        = 0) ∧
    ((runTouchShortcut (nstOf cexBeh4 2) cexBeh4 witState4t witTE4).1.touchShortcut
        = none ∧
     countDeact (runTouchShortcut (nstOf cexBeh4 2) cexBeh4 witState4t witTE4).2.1 7
        = 0) ∧
    ((runNativeShortcut (nstOf cexBeh4 2) cexBeh4 witState4n
        { kind := 3 }).1.nativeGestureShortcut = none ∧
     countDeact (runNativeShortcut (nstOf cexBeh4 2) cexBeh4 witState4n
        { kind := 3 }).2.1 7 = 0) := by
  refine ⟨?_, ?_, ?_⟩
  · have h := claim_C4_amended.1 2 cexBeh4 witState4 1 (IEv.raw 0) cexStroke4
      (by decide) (by decide) (by decide) (by decide) (by decide)
    exact ⟨h.1, h.2.2.2⟩
  · have h := claim_C4_amended.2.1 2 cexBeh4 witState4t witTE4 witTouch4
      (by decide) (by decide) (by decide) (by decide) (by decide) (by decide) (by decide)
    exact ⟨h.1, h.2.2.2⟩
  · have h := claim_C4_amended.2.2 2 cexBeh4 witState4n { kind := 3 } witNG4
      (by decide) (by decide) (by decide) (by decide)
    exact ⟨h.1, h.2.2.2 (fun r hr => Option.noConfusion hr)⟩

/-! ### Claim C8 — touch slop -/

theorem dragFold_eq_any (points : List TouchPoint) :
    ∀ init, dragFold points init =
      (init || points.any (fun p => decide (deltaSq p > 16 * 16))) := by
  induction points with
  | nil => intro init; cases init <;> rfl
  | cons pt pts ih =>
    intro init
    cases init with
    | true =>
      show dragFold pts true = _
      rw [ih true]
      simp
    | false =>
      show dragFold pts (decide (deltaSq pt > 16 * 16)) = _
      rw [ih (decide (deltaSq pt > 16 * 16))]
      simp [List.any_cons]

theorem dragFold_true (points : List TouchPoint) : dragFold points true = true := by
  simp [dragFold_eq_any]

@[simp] theorem forceDeactivateAll_flag (s : MState) :
    (forceDeactivateAll s).1.isTouchDragDetected = s.isTouchDragDetected := by
  rw [forceDeactivateAll_fst]

@[simp] theorem prepareReady_flag (s : MState) :
    (prepareReady s).isTouchDragDetected = s.isTouchDragDetected := by
  obtain ⟨c, h⟩ := prepareReady_fst s
  rw [h]

@[simp] theorem tryActivateReady_flag (s : MState) :
    (tryActivateReady s).1.isTouchDragDetected = s.isTouchDragDetected := by
  obtain ⟨r, h⟩ := tryActivateReady_fst s
  rw [h]

@[simp] theorem tryEndRunning_flag (s : MState) (b : Nat) (ev : IEv) :
    (tryEndRunning s b ev).1.isTouchDragDetected = s.isTouchDragDetected := by
  obtain ⟨ro, rd, h⟩ := tryEndRunning_fst s b ev
  rw [h]

@[simp] theorem forceEndRunning_flag (s : MState) (x y : Int) :
    (forceEndRunning s x y).1.isTouchDragDetected = s.isTouchDragDetected := by
  obtain ⟨ro, rd, h⟩ := forceEndRunning_fst s x y
  rw [h]

@[simp] theorem tryEndTouch_flag (s : MState) (ev : IEv) :
    (tryEndTouch s ev).1.isTouchDragDetected = s.isTouchDragDetected := by
  obtain ⟨t, h⟩ := tryEndTouch_fst s ev
  rw [h]

@[simp] theorem tryEndNative_flag (s : MState) :
    (tryEndNative s).1.isTouchDragDetected = s.isTouchDragDetected := by
  obtain ⟨g, h⟩ := tryEndNative_fst s
  rw [h]

@[simp] theorem setMaxTouchPointEv_flag (s : MState) (e : TouchEv) :
    (setMaxTouchPointEv s e).isTouchDragDetected = s.isTouchDragDetected := by
  obtain ⟨m, bc1, h⟩ := setMaxTouchPointEv_fst s e
  rw [h]

@[simp] theorem runSingleImpl_flag (f : Nat) (s : MState) (trig : Trigger)
    (ev : Option IEv) (ks : List Nat) :
    (runSingleImpl (nstOf noBeh f) noBeh s trig ev ks).1.isTouchDragDetected =
      s.isTouchDragDetected := by
  rw [runSingleImpl_fst]

@[simp] theorem fireReadyTouch_flag (f : Nat) (s : MState) (e : TouchEv) :
    (fireReadyTouch (nstOf noBeh f) noBeh s e).1.isTouchDragDetected =
      s.isTouchDragDetected := by
  rw [fireReadyTouch_fst]

@[simp] theorem runReadyShortcut_flag (f : Nat) (s : MState) (b : Nat) (ev : IEv) :
    (runReadyShortcut (nstOf noBeh f) noBeh s b ev).1.isTouchDragDetected =
      s.isTouchDragDetected := by
  obtain ⟨ro, rd, br1, h⟩ := runReadyShortcut_fst f s b ev
  rw [h]

@[simp] theorem runNativeShortcut_flag (f : Nat) (s : MState) (e : NGEv) :
    (runNativeShortcut (nstOf noBeh f) noBeh s e).1.isTouchDragDetected =
      s.isTouchDragDetected := by
  obtain ⟨g, ug1, br1, h⟩ := runNativeShortcut_fst f s e
  rw [h]

@[simp] theorem runTouchShortcut_flag (f : Nat) (s : MState) (e : TouchEv) :
    (runTouchShortcut (nstOf noBeh f) noBeh s e).1.isTouchDragDetected =
      s.isTouchDragDetected := by
  obtain ⟨ro, rd, t, ut1, br1, h⟩ := runTouchShortcut_fst f s e
  rw [h]

@[simp] theorem enterNotifier_flag (s : MState) :
    (enterNotifier s).isTouchDragDetected = s.isTouchDragDetected := rfl

@[simp] theorem exitNotifier_flag (s : MState) :
    (exitNotifier s).isTouchDragDetected = s.isTouchDragDetected := rfl

@[simp] theorem resetKB_flag (s : MState) :
    (resetKB s).isTouchDragDetected = s.isTouchDragDetected := rfl

@[simp] theorem tryEndTouch_touch (s : MState) (ev : IEv) :
    (tryEndTouch s ev).1.touchShortcut = none := by
  simp only [tryEndTouch]
  split
  · rfl
  · rename_i h
    simpa using h

theorem touchUpdate_flag (f : Nat) (s : MState) (e : TouchEv) :
    (step noBeh (f + 1) s (Ev.touchUpdate e)).1.isTouchDragDetected =
      dragFold e.points s.isTouchDragDetected := by
  rw [step_succ]
  simp only [stepCore]
  split
  · simp
  · split
    · cases hts : s.touchShortcut with
      | none =>
        dsimp only
        split
        · simp
        · simp
      | some t =>
        dsimp only
        split
        · split
          · simp
          · simp
        · split
          · simp
          · split
            · split
              · simp [noBeh, nstOf_nil]
              · split <;> simp
            · simp
    · split
      · split <;> simp
      · simp

set_option maxHeartbeats 2000000 in
theorem step_flag_frame (f : Nat) (s : MState) (ev : Ev)
    (hb : ∀ te, ev ≠ Ev.touchBegin te) (hu : ∀ te, ev ≠ Ev.touchUpdate te) :
    (step noBeh (f + 1) s ev).1.isTouchDragDetected = s.isTouchDragDetected := by
  rw [step_succ]
  cases ev <;>
    first
      | exact absurd rfl (hb _)
      | exact absurd rfl (hu _)
      | (simp only [stepCore]
         repeat' split
         all_goals try rfl
         all_goals simp [noBeh, nstOf_nil])

/-- C8: the touch-slop boundary.  During `touchUpdateEvent`, if no touch
point has moved strictly more than `16 * 16 = 256` squared pixels from its
start position (in particular when the squared displacement is exactly 256),
the drag flag is not set; if some point's squared displacement is strictly
greater than 256 (for instance 257), the flag is set; and once set the flag
survives every entry point except `touchBeginEvent`. -/
theorem claim_C8 (f : Nat) (s : MState) (e : TouchEv) (ev2 : Ev) :
    (s.isTouchDragDetected = false → (∀ p ∈ e.points, deltaSq p ≤ 16 * 16) →
      (step noBeh (f + 1) s (Ev.touchUpdate e)).1.isTouchDragDetected = false) ∧
    ((∃ p ∈ e.points, deltaSq p > 16 * 16) →
      (step noBeh (f + 1) s (Ev.touchUpdate e)).1.isTouchDragDetected = true) ∧
    (s.isTouchDragDetected = true → (∀ te, ev2 ≠ Ev.touchBegin te) →
      (step noBeh (f + 1) s ev2).1.isTouchDragDetected = true) := by
  refine ⟨?_, ?_, ?_⟩
  · intro hf hall
    rw [touchUpdate_flag, dragFold_eq_any, hf]
    simp only [Bool.false_or, List.any_eq_false, decide_eq_true_eq]
    intro p hp
    exact not_lt.mpr (hall p hp)
  · rintro ⟨p, hp, hgt⟩
    rw [touchUpdate_flag, dragFold_eq_any]
    refine Bool.or_eq_true_iff.mpr (Or.inr ?_)
    rw [List.any_eq_true]
    exact ⟨p, hp, decide_eq_true hgt⟩
  · intro hf hnb
    by_cases hup : ∃ te, ev2 = Ev.touchUpdate te
    · obtain ⟨te, rfl⟩ := hup
      rw [touchUpdate_flag, hf, dragFold_true]
    · rw [step_flag_frame f s ev2 hnb (fun te hte => hup ⟨te, hte⟩), hf]

/-- Touch event whose only point moved exactly 256 squared pixels. -/
def witTE8a : TouchEv :=
  { points := [{ px := 16, py := 0, sx := 0, sy := 0 }], hasPressed := false,
    hasReleased := false }

/-- Touch event whose only point moved 257 squared pixels. -/
def witTE8b : TouchEv :=
  { points := [{ px := 16, py := 1, sx := 0, sy := 0 }], hasPressed := false,
    hasReleased := false }

/-- A state with the drag flag already set. -/
def dragState8 : MState := { initState with isTouchDragDetected := true }

/-- C8 witness: squared displacement exactly 256 does not set the flag, 257
does, and a non-touch-begin event preserves a set flag. -/
theorem claim_C8_witness :
    ((∀ p ∈ witTE8a.points, deltaSq p ≤ 16 * 16) ∧
      (step noBeh 1 initState (Ev.touchUpdate witTE8a)).1.isTouchDragDetected = false) ∧
    ((∃ p ∈ witTE8b.points, deltaSq p > 16 * 16) ∧
      (step noBeh 1 initState (Ev.touchUpdate witTE8b)).1.isTouchDragDetected = true) ∧
    (step noBeh 1 dragState8 Ev.clearAll).1.isTouchDragDetected = true :=
  ⟨⟨by decide, (claim_C8 0 initState witTE8a Ev.clearAll).1 rfl (by decide)⟩,
   ⟨by decide, (claim_C8 0 initState witTE8b Ev.clearAll).2.1 (by decide)⟩,
   (claim_C8 0 dragState8 witTE8a Ev.clearAll).2.2 rfl
     (fun te hte => Ev.noConfusion hte)⟩

/-! ### Engine-field projection lemmas (generated mechanically from the
shape lemmas above) -/

@[simp] theorem forceDeactivateAll_runningShortcut (s : MState) :
    ((forceDeactivateAll s).1).runningShortcut = s.runningShortcut := by
  rw [forceDeactivateAll_fst s]

@[simp] theorem forceDeactivateAll_touchShortcut (s : MState) :
    ((forceDeactivateAll s).1).touchShortcut = s.touchShortcut := by
  rw [forceDeactivateAll_fst s]

@[simp] theorem forceDeactivateAll_nativeGestureShortcut (s : MState) :
    ((forceDeactivateAll s).1).nativeGestureShortcut = s.nativeGestureShortcut := by
  rw [forceDeactivateAll_fst s]

@[simp] theorem forceDeactivateAll_usingTouch (s : MState) :
    ((forceDeactivateAll s).1).usingTouch = s.usingTouch := by
  rw [forceDeactivateAll_fst s]

@[simp] theorem forceDeactivateAll_usingNativeGesture (s : MState) :
    ((forceDeactivateAll s).1).usingNativeGesture = s.usingNativeGesture := by
  rw [forceDeactivateAll_fst s]

@[simp] theorem prepareReady_runningShortcut (s : MState) :
    ((prepareReady s)).runningShortcut = s.runningShortcut := by
  obtain ⟨x1, h⟩ := prepareReady_fst s
  rw [h]

@[simp] theorem prepareReady_touchShortcut (s : MState) :
    ((prepareReady s)).touchShortcut = s.touchShortcut := by
  obtain ⟨x1, h⟩ := prepareReady_fst s
  rw [h]

@[simp] theorem prepareReady_nativeGestureShortcut (s : MState) :
    ((prepareReady s)).nativeGestureShortcut = s.nativeGestureShortcut := by
  obtain ⟨x1, h⟩ := prepareReady_fst s
  rw [h]

@[simp] theorem prepareReady_usingTouch (s : MState) :
    ((prepareReady s)).usingTouch = s.usingTouch := by
  obtain ⟨x1, h⟩ := prepareReady_fst s
  rw [h]

@[simp] theorem prepareReady_usingNativeGesture (s : MState) :
    ((prepareReady s)).usingNativeGesture = s.usingNativeGesture := by
  obtain ⟨x1, h⟩ := prepareReady_fst s
  rw [h]

@[simp] theorem tryActivateReady_runningShortcut (s : MState) :
    ((tryActivateReady s).1).runningShortcut = s.runningShortcut := by
  obtain ⟨x1, h⟩ := tryActivateReady_fst s
  rw [h]

@[simp] theorem tryActivateReady_touchShortcut (s : MState) :
    ((tryActivateReady s).1).touchShortcut = s.touchShortcut := by
  obtain ⟨x1, h⟩ := tryActivateReady_fst s
  rw [h]

@[simp] theorem tryActivateReady_nativeGestureShortcut (s : MState) :
    ((tryActivateReady s).1).nativeGestureShortcut = s.nativeGestureShortcut := by
  obtain ⟨x1, h⟩ := tryActivateReady_fst s
  rw [h]

@[simp] theorem tryActivateReady_usingTouch (s : MState) :
    ((tryActivateReady s).1).usingTouch = s.usingTouch := by
  obtain ⟨x1, h⟩ := tryActivateReady_fst s
  rw [h]

@[simp] theorem tryActivateReady_usingNativeGesture (s : MState) :
    ((tryActivateReady s).1).usingNativeGesture = s.usingNativeGesture := by
  obtain ⟨x1, h⟩ := tryActivateReady_fst s
  rw [h]

@[simp] theorem tryEndRunning_touchShortcut (s : MState) (b : Nat) (ev : IEv) :
    ((tryEndRunning s b ev).1).touchShortcut = s.touchShortcut := by
  obtain ⟨x1, x2, h⟩ := tryEndRunning_fst s b ev
  rw [h]

@[simp] theorem tryEndRunning_nativeGestureShortcut (s : MState) (b : Nat) (ev : IEv) :
    ((tryEndRunning s b ev).1).nativeGestureShortcut = s.nativeGestureShortcut := by
  obtain ⟨x1, x2, h⟩ := tryEndRunning_fst s b ev
  rw [h]

@[simp] theorem tryEndRunning_usingTouch (s : MState) (b : Nat) (ev : IEv) :
    ((tryEndRunning s b ev).1).usingTouch = s.usingTouch := by
  obtain ⟨x1, x2, h⟩ := tryEndRunning_fst s b ev
  rw [h]

@[simp] theorem tryEndRunning_usingNativeGesture (s : MState) (b : Nat) (ev : IEv) :
    ((tryEndRunning s b ev).1).usingNativeGesture = s.usingNativeGesture := by
  obtain ⟨x1, x2, h⟩ := tryEndRunning_fst s b ev
  rw [h]

@[simp] theorem forceEndRunning_touchShortcut (s : MState) (x y : Int) :
    ((forceEndRunning s x y).1).touchShortcut = s.touchShortcut := by
  obtain ⟨x1, x2, h⟩ := forceEndRunning_fst s x y
  rw [h]

@[simp] theorem forceEndRunning_nativeGestureShortcut (s : MState) (x y : Int) :
    ((forceEndRunning s x y).1).nativeGestureShortcut = s.nativeGestureShortcut := by
  obtain ⟨x1, x2, h⟩ := forceEndRunning_fst s x y
  rw [h]

@[simp] theorem forceEndRunning_usingTouch (s : MState) (x y : Int) :
    ((forceEndRunning s x y).1).usingTouch = s.usingTouch := by
  obtain ⟨x1, x2, h⟩ := forceEndRunning_fst s x y
  rw [h]

@[simp] theorem forceEndRunning_usingNativeGesture (s : MState) (x y : Int) :
    ((forceEndRunning s x y).1).usingNativeGesture = s.usingNativeGesture := by
  obtain ⟨x1, x2, h⟩ := forceEndRunning_fst s x y
  rw [h]

@[simp] theorem tryEndTouch_runningShortcut (s : MState) (ev : IEv) :
    ((tryEndTouch s ev).1).runningShortcut = s.runningShortcut := by
  obtain ⟨x1, h⟩ := tryEndTouch_fst s ev
  rw [h]

@[simp] theorem tryEndTouch_nativeGestureShortcut (s : MState) (ev : IEv) :
    ((tryEndTouch s ev).1).nativeGestureShortcut = s.nativeGestureShortcut := by
  obtain ⟨x1, h⟩ := tryEndTouch_fst s ev
  rw [h]

@[simp] theorem tryEndTouch_usingTouch (s : MState) (ev : IEv) :
    ((tryEndTouch s ev).1).usingTouch = s.usingTouch := by
  obtain ⟨x1, h⟩ := tryEndTouch_fst s ev
  rw [h]

@[simp] theorem tryEndTouch_usingNativeGesture (s : MState) (ev : IEv) :
    ((tryEndTouch s ev).1).usingNativeGesture = s.usingNativeGesture := by
  obtain ⟨x1, h⟩ := tryEndTouch_fst s ev
  rw [h]

@[simp] theorem tryEndNative_runningShortcut (s : MState) :
    ((tryEndNative s).1).runningShortcut = s.runningShortcut := by
  obtain ⟨x1, h⟩ := tryEndNative_fst s
  rw [h]

@[simp] theorem tryEndNative_touchShortcut (s : MState) :
    ((tryEndNative s).1).touchShortcut = s.touchShortcut := by
  obtain ⟨x1, h⟩ := tryEndNative_fst s
  rw [h]

@[simp] theorem tryEndNative_usingTouch (s : MState) :
    ((tryEndNative s).1).usingTouch = s.usingTouch := by
  obtain ⟨x1, h⟩ := tryEndNative_fst s
  rw [h]

@[simp] theorem tryEndNative_usingNativeGesture (s : MState) :
    ((tryEndNative s).1).usingNativeGesture = s.usingNativeGesture := by
  obtain ⟨x1, h⟩ := tryEndNative_fst s
  rw [h]

@[simp] theorem setMaxTouchPointEv_runningShortcut (s : MState) (e : TouchEv) :
    ((setMaxTouchPointEv s e)).runningShortcut = s.runningShortcut := by
  obtain ⟨x1, x2, h⟩ := setMaxTouchPointEv_fst s e
  rw [h]

@[simp] theorem setMaxTouchPointEv_touchShortcut (s : MState) (e : TouchEv) :
    ((setMaxTouchPointEv s e)).touchShortcut = s.touchShortcut := by
  obtain ⟨x1, x2, h⟩ := setMaxTouchPointEv_fst s e
  rw [h]

@[simp] theorem setMaxTouchPointEv_nativeGestureShortcut (s : MState) (e : TouchEv) :
    ((setMaxTouchPointEv s e)).nativeGestureShortcut = s.nativeGestureShortcut := by
  obtain ⟨x1, x2, h⟩ := setMaxTouchPointEv_fst s e
  rw [h]

@[simp] theorem setMaxTouchPointEv_usingTouch (s : MState) (e : TouchEv) :
    ((setMaxTouchPointEv s e)).usingTouch = s.usingTouch := by
  obtain ⟨x1, x2, h⟩ := setMaxTouchPointEv_fst s e
  rw [h]

@[simp] theorem setMaxTouchPointEv_usingNativeGesture (s : MState) (e : TouchEv) :
    ((setMaxTouchPointEv s e)).usingNativeGesture = s.usingNativeGesture := by
  obtain ⟨x1, x2, h⟩ := setMaxTouchPointEv_fst s e
  rw [h]

@[simp] theorem runSingleImpl_runningShortcut (f : Nat) (s : MState) (trig : Trigger) (ev : Option IEv) (ks : List Nat) :
    ((runSingleImpl (nstOf noBeh f) noBeh s trig ev ks).1).runningShortcut = s.runningShortcut := by
  rw [runSingleImpl_fst f s trig ev ks]

@[simp] theorem runSingleImpl_touchShortcut (f : Nat) (s : MState) (trig : Trigger) (ev : Option IEv) (ks : List Nat) :
    ((runSingleImpl (nstOf noBeh f) noBeh s trig ev ks).1).touchShortcut = s.touchShortcut := by
  rw [runSingleImpl_fst f s trig ev ks]

@[simp] theorem runSingleImpl_nativeGestureShortcut (f : Nat) (s : MState) (trig : Trigger) (ev : Option IEv) (ks : List Nat) :
    ((runSingleImpl (nstOf noBeh f) noBeh s trig ev ks).1).nativeGestureShortcut = s.nativeGestureShortcut := by
  rw [runSingleImpl_fst f s trig ev ks]

@[simp] theorem runSingleImpl_usingTouch (f : Nat) (s : MState) (trig : Trigger) (ev : Option IEv) (ks : List Nat) :
    ((runSingleImpl (nstOf noBeh f) noBeh s trig ev ks).1).usingTouch = s.usingTouch := by
  rw [runSingleImpl_fst f s trig ev ks]

@[simp] theorem runSingleImpl_usingNativeGesture (f : Nat) (s : MState) (trig : Trigger) (ev : Option IEv) (ks : List Nat) :
    ((runSingleImpl (nstOf noBeh f) noBeh s trig ev ks).1).usingNativeGesture = s.usingNativeGesture := by
  rw [runSingleImpl_fst f s trig ev ks]

@[simp] theorem fireReadyTouch_runningShortcut (f : Nat) (s : MState) (e : TouchEv) :
    ((fireReadyTouch (nstOf noBeh f) noBeh s e).1).runningShortcut = s.runningShortcut := by
  rw [fireReadyTouch_fst f s e]

@[simp] theorem fireReadyTouch_touchShortcut (f : Nat) (s : MState) (e : TouchEv) :
    ((fireReadyTouch (nstOf noBeh f) noBeh s e).1).touchShortcut = s.touchShortcut := by
  rw [fireReadyTouch_fst f s e]

@[simp] theorem fireReadyTouch_nativeGestureShortcut (f : Nat) (s : MState) (e : TouchEv) :
    ((fireReadyTouch (nstOf noBeh f) noBeh s e).1).nativeGestureShortcut = s.nativeGestureShortcut := by
  rw [fireReadyTouch_fst f s e]

@[simp] theorem fireReadyTouch_usingTouch (f : Nat) (s : MState) (e : TouchEv) :
    ((fireReadyTouch (nstOf noBeh f) noBeh s e).1).usingTouch = s.usingTouch := by
  rw [fireReadyTouch_fst f s e]

@[simp] theorem fireReadyTouch_usingNativeGesture (f : Nat) (s : MState) (e : TouchEv) :
    ((fireReadyTouch (nstOf noBeh f) noBeh s e).1).usingNativeGesture = s.usingNativeGesture := by
  rw [fireReadyTouch_fst f s e]

@[simp] theorem runReadyShortcut_touchShortcut (f : Nat) (s : MState) (b : Nat) (ev : IEv) :
    ((runReadyShortcut (nstOf noBeh f) noBeh s b ev).1).touchShortcut = s.touchShortcut := by
  obtain ⟨x1, x2, x3, h⟩ := runReadyShortcut_fst f s b ev
  rw [h]

@[simp] theorem runReadyShortcut_nativeGestureShortcut (f : Nat) (s : MState) (b : Nat) (ev : IEv) :
    ((runReadyShortcut (nstOf noBeh f) noBeh s b ev).1).nativeGestureShortcut = s.nativeGestureShortcut := by
  obtain ⟨x1, x2, x3, h⟩ := runReadyShortcut_fst f s b ev
  rw [h]

@[simp] theorem runReadyShortcut_usingTouch (f : Nat) (s : MState) (b : Nat) (ev : IEv) :
    ((runReadyShortcut (nstOf noBeh f) noBeh s b ev).1).usingTouch = s.usingTouch := by
  obtain ⟨x1, x2, x3, h⟩ := runReadyShortcut_fst f s b ev
  rw [h]

@[simp] theorem runReadyShortcut_usingNativeGesture (f : Nat) (s : MState) (b : Nat) (ev : IEv) :
    ((runReadyShortcut (nstOf noBeh f) noBeh s b ev).1).usingNativeGesture = s.usingNativeGesture := by
  obtain ⟨x1, x2, x3, h⟩ := runReadyShortcut_fst f s b ev
  rw [h]

@[simp] theorem runNativeShortcut_runningShortcut (f : Nat) (s : MState) (e : NGEv) :
    ((runNativeShortcut (nstOf noBeh f) noBeh s e).1).runningShortcut = s.runningShortcut := by
  obtain ⟨x1, x2, x3, h⟩ := runNativeShortcut_fst f s e
  rw [h]

@[simp] theorem runNativeShortcut_touchShortcut (f : Nat) (s : MState) (e : NGEv) :
    ((runNativeShortcut (nstOf noBeh f) noBeh s e).1).touchShortcut = s.touchShortcut := by
  obtain ⟨x1, x2, x3, h⟩ := runNativeShortcut_fst f s e
  rw [h]

@[simp] theorem runNativeShortcut_usingTouch (f : Nat) (s : MState) (e : NGEv) :
    ((runNativeShortcut (nstOf noBeh f) noBeh s e).1).usingTouch = s.usingTouch := by
  obtain ⟨x1, x2, x3, h⟩ := runNativeShortcut_fst f s e
  rw [h]

@[simp] theorem runTouchShortcut_nativeGestureShortcut (f : Nat) (s : MState) (e : TouchEv) :
    ((runTouchShortcut (nstOf noBeh f) noBeh s e).1).nativeGestureShortcut = s.nativeGestureShortcut := by
  obtain ⟨x1, x2, x3, x4, x5, h⟩ := runTouchShortcut_fst f s e
  rw [h]

@[simp] theorem runTouchShortcut_usingNativeGesture (f : Nat) (s : MState) (e : TouchEv) :
    ((runTouchShortcut (nstOf noBeh f) noBeh s e).1).usingNativeGesture = s.usingNativeGesture := by
  obtain ⟨x1, x2, x3, x4, x5, h⟩ := runTouchShortcut_fst f s e
  rw [h]

@[simp] theorem enterNotifier_runningShortcut (s : MState) :
    (enterNotifier s).runningShortcut = s.runningShortcut := rfl

@[simp] theorem enterNotifier_touchShortcut (s : MState) :
    (enterNotifier s).touchShortcut = s.touchShortcut := rfl

@[simp] theorem enterNotifier_nativeGestureShortcut (s : MState) :
    (enterNotifier s).nativeGestureShortcut = s.nativeGestureShortcut := rfl

@[simp] theorem enterNotifier_usingTouch (s : MState) :
    (enterNotifier s).usingTouch = s.usingTouch := rfl

@[simp] theorem enterNotifier_usingNativeGesture (s : MState) :
    (enterNotifier s).usingNativeGesture = s.usingNativeGesture := rfl

@[simp] theorem exitNotifier_runningShortcut (s : MState) :
    (exitNotifier s).runningShortcut = s.runningShortcut := rfl

@[simp] theorem exitNotifier_touchShortcut (s : MState) :
    (exitNotifier s).touchShortcut = s.touchShortcut := rfl

@[simp] theorem exitNotifier_nativeGestureShortcut (s : MState) :
    (exitNotifier s).nativeGestureShortcut = s.nativeGestureShortcut := rfl

@[simp] theorem exitNotifier_usingTouch (s : MState) :
    (exitNotifier s).usingTouch = s.usingTouch := rfl

@[simp] theorem exitNotifier_usingNativeGesture (s : MState) :
    (exitNotifier s).usingNativeGesture = s.usingNativeGesture := rfl

@[simp] theorem resetKB_runningShortcut (s : MState) :
    (resetKB s).runningShortcut = s.runningShortcut := rfl

@[simp] theorem resetKB_touchShortcut (s : MState) :
    (resetKB s).touchShortcut = s.touchShortcut := rfl

@[simp] theorem resetKB_nativeGestureShortcut (s : MState) :
    (resetKB s).nativeGestureShortcut = s.nativeGestureShortcut := rfl

@[simp] theorem resetKB_usingTouch (s : MState) :
    (resetKB s).usingTouch = s.usingTouch := rfl

@[simp] theorem resetKB_usingNativeGesture (s : MState) :
    (resetKB s).usingNativeGesture = s.usingNativeGesture := rfl

/-! ### Claim C2 — mutual exclusion of running engines -/

/-- At most one of the three running slots is occupied. -/
def atMostOneEngine (s : MState) : Bool :=
  decide ((if s.runningShortcut.isSome then 1 else 0) +
      (if s.touchShortcut.isSome then 1 else 0) +
      (if s.nativeGestureShortcut.isSome then 1 else 0) ≤ 1)

/-- The inductive invariant behind the amended C2: no native gesture
in progress, a running touch shortcut implies `usingTouch`, and the stroke
and touch slots are never both occupied. -/
def inv2 (s : MState) : Bool :=
  s.nativeGestureShortcut.isNone && !s.usingNativeGesture &&
    (!s.touchShortcut.isSome || s.usingTouch) &&
    !(s.runningShortcut.isSome && s.touchShortcut.isSome)

theorem inv2_atMostOne (s : MState) (h : inv2 s = true) : atMostOneEngine s = true := by
  simp only [inv2, Bool.and_eq_true, Option.isNone_iff_eq_none, Bool.not_eq_true',
    Bool.or_eq_true] at h
  simp only [atMostOneEngine, decide_eq_true_eq]
  obtain ⟨⟨⟨hng, -⟩, -⟩, hrt⟩ := h
  rw [hng]
  cases hr : s.runningShortcut.isSome <;> cases ht : s.touchShortcut.isSome <;> simp_all

/-- Events admitted by the amended C2: no native-gesture update events, and
touch-update events only while no stroke shortcut is running. -/
def okEv2 (s : MState) : Ev → Bool
  | Ev.gestureUpdate _ => false
  | Ev.touchUpdate _ => !s.runningShortcut.isSome
  | _ => true

/-- An event sequence admitted by the amended C2 along its own run. -/
def okRun2 (f : Nat) : MState → List Ev → Bool
  | _, [] => true
  | s, e :: es => okEv2 s e && okRun2 f (step noBeh f s e).1 es

/-- The events whose handlers never touch any of the five engine fields. -/
def okFrame2 : Ev → Bool
  | Ev.keyPressed _ => true
  | Ev.autoRepeatKey _ => true
  | Ev.keyReleased _ => true
  | Ev.wheelEvent _ _ => true
  | Ev.pointerMoved _ => true
  | Ev.enterEvent => true
  | Ev.leaveEvent => true
  | Ev.touchBegin _ => true
  | Ev.gestureBegin => true
  | Ev.toolActivated => true
  | Ev.reinit => true
  | Ev.reinitButtons => true
  | Ev.setSuppressActions _ => true
  | Ev.addSingle _ => true
  | Ev.addStroke _ => true
  | Ev.addTouch _ => true
  | Ev.addNative _ => true
  | Ev.touchResetPointer => true
  | _ => false

set_option maxHeartbeats 2000000 in
theorem step_inv2_frame (f : Nat) (s : MState) (ev : Ev) (hev : okFrame2 ev = true) :
    inv2 (step noBeh (f + 1) s ev).1 = inv2 s := by
  rw [step_succ]
  cases ev <;> simp only [okFrame2] at hev <;>
    first
      | exact Bool.noConfusion hev
      | (simp only [stepCore]
         repeat' split
         all_goals try rfl
         all_goals simp [inv2, noBeh, nstOf_nil])

@[simp] theorem forceEndRunning_running (s : MState) (x y : Int) :
    (forceEndRunning s x y).1.runningShortcut = none := by
  simp only [forceEndRunning]
  split
  · rename_i h
    simpa using h
  · split <;> rfl

set_option maxHeartbeats 1000000 in
theorem runTouchShortcut_inv (f : Nat) (s : MState) (e : TouchEv)
    (hrun : s.runningShortcut = none) (hI : inv2 s = true) :
    inv2 (runTouchShortcut (nstOf noBeh f) noBeh s e).1 = true ∧
    (runTouchShortcut (nstOf noBeh f) noBeh s e).1.runningShortcut = none := by
  obtain ⟨sa, su, st, tt, ng0, ke, bu, ru, re, ca, ts, ns, lt, mt, mi, dd, bc, am, sp, ce,
    ut, ug, rc, br⟩ := s
  simp only at hrun
  subst hrun
  simp only [runTouchShortcut]
  split
  · exact ⟨hI, rfl⟩
  · split
    · exact ⟨hI, rfl⟩
    · dsimp only
      cases re with
      | none =>
        refine ⟨?_, rfl⟩
        simp only [inv2, Bool.and_eq_true] at hI ⊢
        simp_all [noBeh, nstOf_nil]
      | some r1 =>
        refine ⟨?_, rfl⟩
        simp only [inv2, Bool.and_eq_true] at hI ⊢
        simp_all [noBeh, nstOf_nil]

set_option maxHeartbeats 4000000 in
theorem inv2_step (f : Nat) (s : MState) (ev : Ev) (hI : inv2 s = true)
    (hE : okEv2 s ev = true) : inv2 (step noBeh f s ev).1 = true := by
  cases f with
  | zero => exact hI
  | succ f' =>
    by_cases hfr : okFrame2 ev = true
    · rw [step_inv2_frame f' s ev hfr]
      exact hI
    · have hI' := hI
      simp only [inv2, Bool.and_eq_true, Option.isNone_iff_eq_none, Bool.not_eq_true',
        Bool.or_eq_true] at hI'
      obtain ⟨⟨⟨hng, hug⟩, htu⟩, hrt⟩ := hI'
      cases ev with
      | keyPressed k => exact absurd rfl hfr
      | autoRepeatKey k => exact absurd rfl hfr
      | keyReleased k => exact absurd rfl hfr
      | wheelEvent w iev => exact absurd rfl hfr
      | pointerMoved iev => exact absurd rfl hfr
      | enterEvent => exact absurd rfl hfr
      | leaveEvent => exact absurd rfl hfr
      | touchBegin te => exact absurd rfl hfr
      | gestureBegin => exact absurd rfl hfr
      | toolActivated => exact absurd rfl hfr
      | reinit => exact absurd rfl hfr
      | reinitButtons => exact absurd rfl hfr
      | setSuppressActions b => exact absurd rfl hfr
      | addSingle sh => exact absurd rfl hfr
      | addStroke sh => exact absurd rfl hfr
      | addTouch sh => exact absurd rfl hfr
      | addNative sh => exact absurd rfl hfr
      | touchResetPointer => exact absurd rfl hfr
      | gestureUpdate e => exact absurd hE (by simp [okEv2])
      | buttonPressed b iev =>
        rw [step_succ]
        simp only [stepCore]
        split
        · simpa [inv2] using hI
        · rename_i hgate
          have hut2 : s.usingTouch = false ∧ s.usingNativeGesture = false := by
            simpa [usingTouchNow, not_or, Bool.not_eq_true] using hgate
          have hts : s.touchShortcut.isSome = false := by
            rcases htu with h | h
            · exact h
            · rw [hut2.1] at h
              exact Bool.noConfusion h
          repeat' split
          all_goals simp [inv2, noBeh, nstOf_nil, hng, hug, hut2.1, hut2.2, hts]
      | buttonReleased b iev =>
        rw [step_succ]
        simp only [stepCore]
        split
        · simpa [inv2] using hI
        · rename_i hgate
          have hut2 : s.usingTouch = false ∧ s.usingNativeGesture = false := by
            simpa [usingTouchNow, not_or, Bool.not_eq_true] using hgate
          have hts : s.touchShortcut.isSome = false := by
            rcases htu with h | h
            · exact h
            · rw [hut2.1] at h
              exact Bool.noConfusion h
          repeat' split
          all_goals simp [inv2, noBeh, nstOf_nil, hng, hug, hut2.1, hut2.2, hts]
      | touchEnd te =>
        rw [step_succ]
        simp only [stepCore]
        repeat' split
        all_goals simp [inv2, noBeh, nstOf_nil, hng, hug]
      | touchCancel te x y =>
        rw [step_succ]
        simp only [stepCore]
        rcases htu with htu | htu <;>
          · repeat' split
            all_goals simp_all [inv2, noBeh, nstOf_nil]
      | gestureEnd e =>
        rw [step_succ]
        simp only [stepCore]
        rcases htu with h | h <;> simp [inv2, hng, hug, h, hrt]
      | lostFocus x y =>
        rw [step_succ]
        simp only [stepCore]
        rcases htu with h | h <;>
          · repeat' split
            all_goals simp_all [inv2, noBeh, nstOf_nil]
      | clearAll =>
        rw [step_succ]
        simp only [stepCore]
        rcases htu with h | h <;> simp [inv2, resetKB, hng, hug, h]
      | touchUpdate te =>
        have hrun' : s.runningShortcut = none := by
          have hv : s.runningShortcut.isSome = false := by simpa [okEv2] using hE
          cases h2 : s.runningShortcut with
          | none => rfl
          | some r =>
            rw [h2] at hv
            exact Bool.noConfusion hv
        rw [step_succ]
        simp only [stepCore]
        rcases htu with htu | htu <;>
        · split
          · simp_all [inv2]
          · split
            · cases hts2 : s.touchShortcut with
              | none =>
                dsimp only
                split
                · refine (runTouchShortcut_inv f' _ te ?_ ?_).1
                  · simp [hrun']
                  · simp_all [inv2]
                · simp_all [inv2]
              | some t =>
                dsimp only
                split
                · split
                  · refine (runTouchShortcut_inv f' _ te ?_ ?_).1
                    · simp [hrun']
                    · simp_all [inv2]
                  · split
                    · simp_all [inv2, noBeh, nstOf_nil]
                    · simp_all [inv2, noBeh, nstOf_nil]
                · split
                  · refine (runTouchShortcut_inv f' _ te ?_ ?_).1
                    · simp [hrun']
                    · simp_all [inv2]
                  · split
                    · split
                      · simp_all [inv2, noBeh, nstOf_nil]
                      · split <;> simp_all [inv2, noBeh, nstOf_nil]
                    · simp_all [inv2, noBeh, nstOf_nil]
            · repeat' split
              all_goals simp_all [inv2, noBeh, nstOf_nil]
/-- The invariant `inv2` is preserved along any admitted run. -/
theorem inv2_run (f : Nat) (evs : List Ev) (s : MState) (hI : inv2 s = true)
    (hok : okRun2 f s evs = true) :
    inv2 (runList (step noBeh f) s evs).1 = true := by
  induction evs generalizing s with
  | nil => exact hI
  | cons e es ih =>
    simp only [okRun2, Bool.and_eq_true] at hok
    simp only [runList]
    exact ih _ (inv2_step f s e hI hok.1) hok.2

/-- **C2** (amended): mutual exclusion of the running engines holds for every
event sequence from the initial empty matcher that contains no native-gesture
update event and delivers touch-update events only while no stroke shortcut
is running: after such a run, at most one of the stroke, touch and
native-gesture running slots is occupied.  The restriction is necessary —
`nativeGestureEvent`'s start path checks neither the stroke nor the touch
slot, so an update gesture delivered while a stroke runs leaves both the
stroke and the native-gesture slot set (`claim_C2_cex`). -/
theorem claim_C2_amended (f : Nat) (evs : List Ev)
    (hok : okRun2 f initState evs = true) :
    atMostOneEngine (runList (step noBeh f) initState evs).1 = true :=
  inv2_atMostOne _ (inv2_run f evs initState (by decide) hok)

/-- The stroke shortcut of the C2 scenarios: key 5 plus left button. -/
def cexStroke2 : StrokeShortcut :=
  { keys := [5], buttons := [1], group := 1, priority := 0, action := 4, index := 0 }

/-- The native-gesture shortcut of the C2 counterexample. -/
def cexNG2 : NGShortcut :=
  { kind := 3, group := 1, priority := 0, action := 8, index := 1 }

/-- The C2 counterexample run: register a stroke and a native-gesture
shortcut, start the stroke with key 5 and button 1, then deliver an update
native-gesture event while the stroke is still running. -/
def cexRun2 : MState × List ACall :=
  runList (step noBeh 3) initState
    [Ev.addStroke cexStroke2, Ev.addNative cexNG2, Ev.enterEvent, Ev.keyPressed 5,
     Ev.buttonPressed 1 (IEv.raw 0), Ev.gestureUpdate { kind := 3 }]

/-- C2 counterexample: after the run, both the stroke slot and the
native-gesture slot are occupied — `tryRunNativeGestureShortcut` never
consults the other running slots, so the unamended claim is false. -/
theorem claim_C2_cex :
    cexRun2.1.runningShortcut = some cexStroke2 ∧
    cexRun2.1.nativeGestureShortcut = some cexNG2 := by decide

/-- The admitted event sequence of the C2 witness: a full stroke lifecycle. -/
def witEvs2 : List Ev :=
  [Ev.addStroke cexStroke2, Ev.enterEvent, Ev.keyPressed 5,
   Ev.buttonPressed 1 (IEv.raw 0), Ev.buttonReleased 1 (IEv.raw 1)]

/-- C2 witness: the stroke-lifecycle sequence is admitted, and the amended
theorem yields mutual exclusion for it. -/
theorem claim_C2_witness :
    okRun2 3 initState witEvs2 = true ∧
    atMostOneEngine (runList (step noBeh 3) initState witEvs2).1 = true :=
  ⟨by decide, claim_C2_amended 3 witEvs2 (by decide)⟩

/-! ### Claim C1 — activate/deactivate pairing -/

/-- Number of slots (ready, running stroke, touch, native gesture) currently
holding a shortcut whose action is `a` — i.e. the number of outstanding
activations of action `a`. -/
def slotCnt (s : MState) (a : Nat) : Nat :=
  (match s.readyShortcut with
   | some r => if r.action = a then 1 else 0
   | none => 0) +
  (match s.runningShortcut with
   | some r => if r.action = a then 1 else 0
   | none => 0) +
  (match s.touchShortcut with
   | some t => if t.action = a then 1 else 0
   | none => 0) +
  (match s.nativeGestureShortcut with
   | some g => if g.action = a then 1 else 0
   | none => 0)

/-- Balance across one transition: the `activate` calls in the emitted trace
plus the activations outstanding before equal the `deactivate` calls plus
the activations outstanding after. -/
def balStep (s s' : MState) (tr : List ACall) (a : Nat) : Prop :=
  countAct tr a + slotCnt s a = countDeact tr a + slotCnt s' a

theorem balStep_nil (s : MState) (a : Nat) : balStep s s [] a := rfl

theorem balStep_comp {s s1 s2 : MState} {t1 t2 : List ACall} {a : Nat}
    (h1 : balStep s s1 t1 a) (h2 : balStep s1 s2 t2 a) :
    balStep s s2 (t1 ++ t2) a := by
  simp only [balStep, countAct_append, countDeact_append] at h1 h2 ⊢
  omega

theorem forceDeactivateAll_bal (s : MState) (a : Nat) :
    balStep s (forceDeactivateAll s).1 (forceDeactivateAll s).2 a := by
  obtain ⟨sa, su, st, tt, ng, ke, bu, ru, re, ca, ts, ns, lt, mt, mi, dd, bc, am, sp, ce,
    ut, ug, rc, br⟩ := s
  cases re
  all_goals simp_all [balStep, forceDeactivateAll, slotCnt, countAct, countDeact]
  all_goals (repeat' split)
  all_goals omega

theorem slotCnt_prepareReady (s : MState) (a : Nat) :
    slotCnt (prepareReady s) a = slotCnt s a := by
  simp only [prepareReady]
  split <;> rfl

theorem tryActivateReady_bal (s : MState) (a : Nat) :
    balStep s (tryActivateReady s).1 (tryActivateReady s).2 a := by
  obtain ⟨sa, su, st, tt, ng, ke, bu, ru, re, ca, ts, ns, lt, mt, mi, dd, bc, am, sp, ce,
    ut, ug, rc, br⟩ := s
  simp only [tryActivateReady]
  repeat' split
  all_goals simp_all [balStep, slotCnt, countAct, countDeact]
  all_goals (repeat' split)
  all_goals omega

theorem tryEndRunning_bal (s : MState) (b : Nat) (ev : IEv) (a : Nat) :
    balStep s (tryEndRunning s b ev).1 (tryEndRunning s b ev).2.1 a := by
  obtain ⟨sa, su, st, tt, ng, ke, bu, ru, re, ca, ts, ns, lt, mt, mi, dd, bc, am, sp, ce,
    ut, ug, rc, br⟩ := s
  simp only [tryEndRunning, forceDeactivateAll]
  repeat' split
  all_goals simp_all [balStep, slotCnt, countAct, countDeact, countAct_append,
    countDeact_append]
  all_goals (repeat' split)
  all_goals omega

theorem forceEndRunning_bal (s : MState) (x y : Int) (a : Nat) :
    balStep s (forceEndRunning s x y).1 (forceEndRunning s x y).2 a := by
  obtain ⟨sa, su, st, tt, ng, ke, bu, ru, re, ca, ts, ns, lt, mt, mi, dd, bc, am, sp, ce,
    ut, ug, rc, br⟩ := s
  simp only [forceEndRunning, forceDeactivateAll]
  repeat' split
  all_goals simp_all [balStep, slotCnt, countAct, countDeact, countAct_append,
    countDeact_append]
  all_goals (repeat' split)
  all_goals omega

theorem tryEndTouch_bal (s : MState) (ev : IEv) (a : Nat) :
    balStep s (tryEndTouch s ev).1 (tryEndTouch s ev).2.1 a := by
  obtain ⟨sa, su, st, tt, ng, ke, bu, ru, re, ca, ts, ns, lt, mt, mi, dd, bc, am, sp, ce,
    ut, ug, rc, br⟩ := s
  simp only [tryEndTouch]
  repeat' split
  all_goals simp_all [balStep, slotCnt, countAct, countDeact]
  all_goals (repeat' split)
  all_goals omega

theorem tryEndNative_bal (s : MState) (a : Nat) :
    balStep s (tryEndNative s).1 (tryEndNative s).2.1 a := by
  obtain ⟨sa, su, st, tt, ng, ke, bu, ru, re, ca, ts, ns, lt, mt, mi, dd, bc, am, sp, ce,
    ut, ug, rc, br⟩ := s
  simp only [tryEndNative]
  repeat' split
  all_goals simp_all [balStep, slotCnt, countAct, countDeact]
  all_goals (repeat' split)
  all_goals omega

theorem runSingleImpl_bal (f : Nat) (s : MState) (trig : Trigger) (ev : Option IEv)
    (ks : List Nat) (a : Nat) :
    balStep s (runSingleImpl (nstOf noBeh f) noBeh s trig ev ks).1
      (runSingleImpl (nstOf noBeh f) noBeh s trig ev ks).2.1 a := by
  simp only [runSingleImpl, noBeh, nstOf_nil]
  repeat' split
  all_goals simp [balStep, countAct, countDeact, countAct_append, countDeact_append]

theorem fireReadyTouch_bal (f : Nat) (s : MState) (e : TouchEv) (a : Nat) :
    balStep s (fireReadyTouch (nstOf noBeh f) noBeh s e).1
      (fireReadyTouch (nstOf noBeh f) noBeh s e).2 a := by
  simp only [fireReadyTouch, noBeh, nstOf_nil]
  repeat' split
  all_goals simp [balStep, countAct, countDeact, countAct_append, countDeact_append]

set_option maxHeartbeats 1000000 in
theorem runReadyShortcut_bal (f : Nat) (s : MState) (b : Nat) (ev : IEv) (a : Nat)
    (hru : s.runningShortcut = none) :
    balStep s (runReadyShortcut (nstOf noBeh f) noBeh s b ev).1
      (runReadyShortcut (nstOf noBeh f) noBeh s b ev).2.1 a := by
  obtain ⟨sa, su, st, tt, ng, ke, bu, ru, re, ca, ts, ns, lt, mt, mi, dd, bc, am, sp, ce,
    ut, ug, rc, br⟩ := s
  subst hru
  simp only [runReadyShortcut, noBeh, nstOf_nil]
  repeat' split
  all_goals simp_all [balStep, slotCnt, countAct, countDeact, countAct_append,
    countDeact_append]
  all_goals (repeat' split)
  all_goals omega

set_option maxHeartbeats 1000000 in
theorem runNativeShortcut_bal (f : Nat) (s : MState) (e : NGEv) (a : Nat)
    (hns : s.nativeGestureShortcut = none) :
    balStep s (runNativeShortcut (nstOf noBeh f) noBeh s e).1
      (runNativeShortcut (nstOf noBeh f) noBeh s e).2.1 a := by
  obtain ⟨sa, su, st, tt, ng, ke, bu, ru, re, ca, ts, ns, lt, mt, mi, dd, bc, am, sp, ce,
    ut, ug, rc, br⟩ := s
  subst hns
  simp only [runNativeShortcut, noBeh, nstOf_nil]
  repeat' split
  all_goals simp_all [balStep, slotCnt, countAct, countDeact, countAct_append,
    countDeact_append]
  all_goals (repeat' split)
  all_goals omega

set_option maxHeartbeats 2000000 in
theorem runTouchShortcut_bal (f : Nat) (s : MState) (e : TouchEv) (a : Nat)
    (hts : s.touchShortcut = none) :
    balStep s (runTouchShortcut (nstOf noBeh f) noBeh s e).1
      (runTouchShortcut (nstOf noBeh f) noBeh s e).2.1 a := by
  obtain ⟨sa, su, st, tt, ng, ke, bu, ru, re, ca, ts, ns, lt, mt, mi, dd, bc, am, sp, ce,
    ut, ug, rc, br⟩ := s
  subst hts
  simp only [runTouchShortcut, tryEndRunning, forceDeactivateAll, noBeh, nstOf_nil]
  repeat' split
  all_goals simp_all [balStep, slotCnt, countAct, countDeact, countAct_append,
    countDeact_append]
  all_goals (repeat' split)
  all_goals omega

theorem balStep_cast {s s' t t' : MState} {tr : List ACall} {a : Nat}
    (hl : slotCnt s a = slotCnt t a) (hr : slotCnt s' a = slotCnt t' a)
    (h : balStep s s' tr a) : balStep t t' tr a := by
  simp only [balStep] at h ⊢
  omega

theorem qstep_bal (s2 : MState) (a : Nat) :
    balStep s2
      (if inRecursion s2 then forceDeactivateAll s2
       else if !s2.runningShortcut.isSome then tryActivateReady (prepareReady s2)
       else (s2, [])).1
      (if inRecursion s2 then forceDeactivateAll s2
       else if !s2.runningShortcut.isSome then tryActivateReady (prepareReady s2)
       else (s2, [])).2 a := by
  split
  · exact forceDeactivateAll_bal s2 a
  · split
    · have h := tryActivateReady_bal (prepareReady s2) a
      simp only [balStep, slotCnt_prepareReady] at h ⊢
      exact h
    · exact balStep_nil s2 a

theorem balE_keyPressed (f : Nat) (s0 : MState) (k a : Nat) :
    balStep s0 (step noBeh (f + 1) s0 (Ev.keyPressed k)).1
      (step noBeh (f + 1) s0 (Ev.keyPressed k)).2.1 a := by
  rw [step_succ]
  simp only [stepCore]
  split
  · exact balStep_comp (runSingleImpl_bal f (enterNotifier s0) (Trigger.key k) none
      (enterNotifier s0).keys a) (qstep_bal _ a)
  · exact balStep_comp (balStep_nil (enterNotifier s0) a) (qstep_bal _ a)

theorem balE_autoRepeatKey (f : Nat) (s0 : MState) (k a : Nat) :
    balStep s0 (step noBeh (f + 1) s0 (Ev.autoRepeatKey k)).1
      (step noBeh (f + 1) s0 (Ev.autoRepeatKey k)).2.1 a := by
  rw [step_succ]
  simp only [stepCore]
  split
  · exact forceDeactivateAll_bal (enterNotifier s0) a
  · split
    · exact runSingleImpl_bal f (enterNotifier s0) (Trigger.key k) none
        (removeS k (enterNotifier s0).keys) a
    · exact balStep_nil s0 a

theorem slotCnt_keyRel (s : MState) (k : Nat) (a : Nat) :
    slotCnt (if inSet k s.keys then { s with keys := removeS k s.keys } else s) a
      = slotCnt s a := by
  split <;> rfl

theorem balE_keyReleased (f : Nat) (s0 : MState) (k a : Nat) :
    balStep s0 (step noBeh (f + 1) s0 (Ev.keyReleased k)).1
      (step noBeh (f + 1) s0 (Ev.keyReleased k)).2.1 a := by
  rw [step_succ]
  simp only [stepCore]
  exact balStep_cast (slotCnt_keyRel (enterNotifier s0) k a) rfl (qstep_bal _ a)

theorem balE_wheelEvent (f : Nat) (s0 : MState) (w : Nat) (iev : IEv) (a : Nat) :
    balStep s0 (step noBeh (f + 1) s0 (Ev.wheelEvent w iev)).1
      (step noBeh (f + 1) s0 (Ev.wheelEvent w iev)).2.1 a := by
  rw [step_succ]
  simp only [stepCore]
  split
  · exact balStep_nil s0 a
  · exact runSingleImpl_bal f (enterNotifier s0) (Trigger.wheel w) (some iev)
      (enterNotifier s0).keys a

theorem balE_pointerMoved (f : Nat) (s0 : MState) (iev : IEv) (a : Nat) :
    balStep s0 (step noBeh (f + 1) s0 (Ev.pointerMoved iev)).1
      (step noBeh (f + 1) s0 (Ev.pointerMoved iev)).2.1 a := by
  rw [step_succ]
  simp only [stepCore]
  split
  · exact balStep_nil s0 a
  · split
    · simp [balStep, countAct, countDeact]
      rfl
    · exact balStep_nil s0 a

theorem balE_enterEvent (f : Nat) (s0 : MState) (a : Nat) :
    balStep s0 (step noBeh (f + 1) s0 Ev.enterEvent).1
      (step noBeh (f + 1) s0 Ev.enterEvent).2.1 a := by
  rw [step_succ]
  simp only [stepCore]
  exact qstep_bal _ a

theorem balE_leaveEvent (f : Nat) (s0 : MState) (a : Nat) :
    balStep s0 (step noBeh (f + 1) s0 Ev.leaveEvent).1
      (step noBeh (f + 1) s0 Ev.leaveEvent).2.1 a := by
  rw [step_succ]
  simp only [stepCore]
  exact qstep_bal _ a

theorem balE_toolActivated (f : Nat) (s0 : MState) (a : Nat) :
    balStep s0 (step noBeh (f + 1) s0 Ev.toolActivated).1
      (step noBeh (f + 1) s0 Ev.toolActivated).2.1 a := by
  rw [step_succ]
  simp only [stepCore]
  exact qstep_bal _ a

theorem balE_reinit (f : Nat) (s0 : MState) (a : Nat) :
    balStep s0 (step noBeh (f + 1) s0 Ev.reinit).1
      (step noBeh (f + 1) s0 Ev.reinit).2.1 a := by
  rw [step_succ]
  simp only [stepCore]
  exact qstep_bal _ a

theorem balE_reinitButtons (f : Nat) (s0 : MState) (a : Nat) :
    balStep s0 (step noBeh (f + 1) s0 Ev.reinitButtons).1
      (step noBeh (f + 1) s0 Ev.reinitButtons).2.1 a := by
  rw [step_succ]
  simp only [stepCore]
  exact qstep_bal _ a

theorem slotCnt_btnRel (s : MState) (b : Nat) (a : Nat) :
    slotCnt (if inSet b s.buttons then { s with buttons := removeS b s.buttons }
             else resetKB s) a = slotCnt s a := by
  split <;> rfl

theorem balE_buttonPressed (f : Nat) (s0 : MState) (b : Nat) (iev : IEv) (a : Nat) :
    balStep s0 (step noBeh (f + 1) s0 (Ev.buttonPressed b iev)).1
      (step noBeh (f + 1) s0 (Ev.buttonPressed b iev)).2.1 a := by
  rw [step_succ]
  simp only [stepCore]
  split
  · exact balStep_nil s0 a
  · split
    · rename_i hc
      have hru : (prepareReady (enterNotifier s0)).runningShortcut = none := by
        rw [prepareReady_runningShortcut]
        simp only [Bool.and_eq_true, Bool.not_eq_true'] at hc
        cases h2 : (enterNotifier s0).runningShortcut with
        | none => rfl
        | some r =>
          rw [h2] at hc
          exact absurd hc.1 (by simp)
      exact balStep_comp
        (balStep_cast (slotCnt_prepareReady (enterNotifier s0) a) rfl
          (runReadyShortcut_bal f (prepareReady (enterNotifier s0)) b iev a hru))
        (qstep_bal _ a)
    · exact balStep_comp (balStep_nil (enterNotifier s0) a) (qstep_bal _ a)

theorem balE_buttonReleased (f : Nat) (s0 : MState) (b : Nat) (iev : IEv) (a : Nat) :
    balStep s0 (step noBeh (f + 1) s0 (Ev.buttonReleased b iev)).1
      (step noBeh (f + 1) s0 (Ev.buttonReleased b iev)).2.1 a := by
  rw [step_succ]
  simp only [stepCore]
  split
  · exact balStep_nil s0 a
  · split
    · exact balStep_comp (tryEndRunning_bal (enterNotifier s0) b iev a)
        (balStep_cast (slotCnt_btnRel _ b a) rfl (qstep_bal _ a))
    · exact balStep_comp (balStep_nil (enterNotifier s0) a)
        (balStep_cast (slotCnt_btnRel _ b a) rfl (qstep_bal _ a))

theorem balE_gestureUpdate (f : Nat) (s0 : MState) (e : NGEv) (a : Nat) :
    balStep s0 (step noBeh (f + 1) s0 (Ev.gestureUpdate e)).1
      (step noBeh (f + 1) s0 (Ev.gestureUpdate e)).2.1 a := by
  rw [step_succ]
  simp only [stepCore]
  split
  · rename_i hns
    exact runNativeShortcut_bal f s0 e a hns
  · simp [balStep, countAct, countDeact]

theorem balE_gestureEnd (f : Nat) (s0 : MState) (e : NGEv) (a : Nat) :
    balStep s0 (step noBeh (f + 1) s0 (Ev.gestureEnd e)).1
      (step noBeh (f + 1) s0 (Ev.gestureEnd e)).2.1 a := by
  rw [step_succ]
  simp only [stepCore]
  split
  · split
    · exact tryEndNative_bal s0 a
    · exact balStep_nil s0 a
  · exact balStep_nil s0 a

theorem balE_lostFocus (f : Nat) (s0 : MState) (x y : Int) (a : Nat) :
    balStep s0 (step noBeh (f + 1) s0 (Ev.lostFocus x y)).1
      (step noBeh (f + 1) s0 (Ev.lostFocus x y)).2.1 a := by
  rw [step_succ]
  simp only [stepCore]
  split
  · exact balStep_comp (forceEndRunning_bal (enterNotifier s0) x y a)
      (forceDeactivateAll_bal _ a)
  · exact balStep_comp (balStep_nil (enterNotifier s0) a) (forceDeactivateAll_bal _ a)

theorem touchClear_bal (s : MState) (t : TouchShortcut) (ev : IEv) (a : Nat)
    (ht : s.touchShortcut = some t) :
    balStep s { s with touchShortcut := none }
      [ACall.endC t.action (some ev), ACall.deactivate t.action t.index] a := by
  obtain ⟨sa, su, st, tt, ng, ke, bu, ru, re, ca, ts, ns, lt, mt, mi, dd, bc, am, sp, ce,
    ut, ug, rc, br⟩ := s
  subst ht
  simp_all [balStep, slotCnt, countAct, countDeact]
  (repeat' split)
  all_goals omega

theorem pIf_bal (c : Bool) (s : MState) (x y : Int) (a : Nat) :
    balStep s (if c = true then forceEndRunning s x y else (s, [])).1
      (if c = true then forceEndRunning s x y else (s, [])).2 a := by
  split
  · exact forceEndRunning_bal s x y a
  · exact balStep_nil s a

theorem balE_touchCancel (f : Nat) (s0 : MState) (e : TouchEv) (x y : Int) (a : Nat) :
    balStep s0 (step noBeh (f + 1) s0 (Ev.touchCancel e x y)).1
      (step noBeh (f + 1) s0 (Ev.touchCancel e x y)).2.1 a := by
  rw [step_succ]
  simp only [stepCore]
  split
  · rename_i t heq
    exact balStep_comp (pIf_bal _ _ x y a) (touchClear_bal _ t _ a heq)
  · exact balStep_comp (pIf_bal _ _ x y a) (balStep_nil _ a)

theorem balE_touchEnd (f : Nat) (s0 : MState) (e : TouchEv) (a : Nat) :
    balStep s0 (step noBeh (f + 1) s0 (Ev.touchEnd e)).1
      (step noBeh (f + 1) s0 (Ev.touchEnd e)).2.1 a := by
  rw [step_succ]
  simp only [stepCore, noBeh, nstOf_nil]
  split
  · split
    · exact balStep_comp (fireReadyTouch_bal f _ _ a) (tryEndTouch_bal _ _ a)
    · exact balStep_comp (balStep_nil _ a) (tryEndTouch_bal _ _ a)
  · exact balStep_comp (balStep_nil _ a) (tryEndTouch_bal _ _ a)

theorem slotCnt_setMax (s : MState) (e : TouchEv) (a : Nat) :
    slotCnt (setMaxTouchPointEv s e) a = slotCnt s a := by
  simp only [setMaxTouchPointEv]
  split <;> rfl

theorem balStep_one (s : MState) (c : ACall) (a : Nat)
    (hc : countAct [c] a = 0) (hd : countDeact [c] a = 0) : balStep s s [c] a := by
  simp [balStep, hc, hd]

set_option maxHeartbeats 2000000 in
theorem balE_touchUpdate (f : Nat) (s0 : MState) (e : TouchEv) (a : Nat) :
    balStep s0 (step noBeh (f + 1) s0 (Ev.touchUpdate e)).1
      (step noBeh (f + 1) s0 (Ev.touchUpdate e)).2.1 a := by
  obtain ⟨sa, su, st, tt, ng, ke, bu, ru, re, ca, ts, ns, lt, mt, mi, dd, bc, am, sp, ce,
    ut, ug, rc, br⟩ := s0
  rw [step_succ]
  simp only [stepCore, noBeh, nstOf_nil]
  split
  · exact balStep_cast rfl ((slotCnt_setMax _ e a).symm) (balStep_nil _ a)
  · split
    · cases ts with
      | some t =>
        dsimp only
        split
        · split
          · exact balStep_comp (tryEndTouch_bal _ _ a)
              (runTouchShortcut_bal f _ e a (by simp))
          · split
            · rename_i t2 heq2
              simp at heq2
            · exact tryEndTouch_bal _ _ a
        · split
          · rename_i hg
            simp at hg
          · split
            · rename_i t2 heq2
              split
              · exact balStep_comp (balStep_nil _ a) (balStep_one _ _ a rfl rfl)
              · split
                · exact balStep_comp (balStep_nil _ a) (balStep_one _ _ a rfl rfl)
                · exact balStep_comp (balStep_nil _ a) (balStep_one _ _ a rfl rfl)
            · rename_i heq2
              simp at heq2
      | none =>
        dsimp only
        split
        · exact runTouchShortcut_bal f _ e a rfl
        · exact balStep_nil _ a
    · split
      · split
        · exact fireReadyTouch_bal f _ e a
        · exact balStep_nil _ a
      · exact balStep_nil _ a

/-- Events admitted by the amended C1: everything except `clearShortcuts`
and `touchResetStateForPointerEvents`, the two entry points that null the
ready slot without deactivating its action. -/
def okEv1 : Ev → Bool
  | Ev.clearAll => false
  | Ev.touchResetPointer => false
  | _ => true

/-- One step preserves the activate/deactivate balance, for every entry
point except `clearShortcuts` and `touchResetStateForPointerEvents`, with
well-behaved actions. -/
theorem step_bal (f : Nat) (s : MState) (ev : Ev) (a : Nat) (hev : okEv1 ev = true) :
    balStep s (step noBeh f s ev).1 (step noBeh f s ev).2.1 a := by
  cases f with
  | zero => exact balStep_nil s a
  | succ f' =>
    cases ev with
    | clearAll => exact Bool.noConfusion hev
    | touchResetPointer => exact Bool.noConfusion hev
    | keyPressed k => exact balE_keyPressed f' s k a
    | autoRepeatKey k => exact balE_autoRepeatKey f' s k a
    | keyReleased k => exact balE_keyReleased f' s k a
    | buttonPressed b iev => exact balE_buttonPressed f' s b iev a
    | buttonReleased b iev => exact balE_buttonReleased f' s b iev a
    | wheelEvent w iev => exact balE_wheelEvent f' s w iev a
    | pointerMoved iev => exact balE_pointerMoved f' s iev a
    | enterEvent => exact balE_enterEvent f' s a
    | leaveEvent => exact balE_leaveEvent f' s a
    | touchBegin e => exact balStep_nil s a
    | touchUpdate e => exact balE_touchUpdate f' s e a
    | touchEnd e => exact balE_touchEnd f' s e a
    | touchCancel e x y => exact balE_touchCancel f' s e x y a
    | gestureBegin => exact balStep_nil s a
    | gestureUpdate e => exact balE_gestureUpdate f' s e a
    | gestureEnd e => exact balE_gestureEnd f' s e a
    | lostFocus x y => exact balE_lostFocus f' s x y a
    | toolActivated => exact balE_toolActivated f' s a
    | reinit => exact balE_reinit f' s a
    | reinitButtons => exact balE_reinitButtons f' s a
    | setSuppressActions b => exact balStep_nil s a
    | addSingle sh => exact balStep_nil s a
    | addStroke sh => exact balStep_nil s a
    | addTouch sh => exact balStep_nil s a
    | addNative sh => exact balStep_nil s a

/-- Event sequences admitted by the amended C1: no `clearShortcuts` and no
`touchResetStateForPointerEvents` call. -/
def okRun1 : List Ev → Bool
  | [] => true
  | e :: es => okEv1 e && okRun1 es

/-- The balance invariant along any admitted run. -/
theorem bal_run (f : Nat) (evs : List Ev) (s : MState) (a : Nat)
    (hok : okRun1 evs = true) :
    countAct (runList (step noBeh f) s evs).2 a + slotCnt s a
      = countDeact (runList (step noBeh f) s evs).2 a
        + slotCnt (runList (step noBeh f) s evs).1 a := by
  induction evs generalizing s with
  | nil => simp [runList, countAct, countDeact]
  | cons e es ih =>
    simp only [okRun1, Bool.and_eq_true] at hok
    have h1 := step_bal f s e a hok.1
    have h2 := ih (step noBeh f s e).1 hok.2
    simp only [balStep] at h1
    simp only [runList, countAct_append, countDeact_append]
    omega

/-- **C1** (amended): for every event sequence from the initial empty matcher
that contains no `clearShortcuts` and no `touchResetStateForPointerEvents`
call, and with well-behaved actions whose `begin` does not re-enter the
matcher, the number of `activate` calls issued to each action equals the
number of `deactivate` calls plus the number of slots (ready, running
stroke, touch, native gesture) still holding that action; in particular at
quiescence (no slot occupied) the two counts are equal.  The exclusions are
necessary: `clearShortcuts` and `touchResetStateForPointerEvents` both null
an activated ready shortcut without deactivating it (`claim_C1_cex` shows
both), and the broken-by-recursion path drops a deactivate (see C4). -/
theorem claim_C1_amended (f : Nat) (evs : List Ev) (a : Nat)
    (hok : okRun1 evs = true) :
    countAct (runList (step noBeh f) initState evs).2 a
      = countDeact (runList (step noBeh f) initState evs).2 a
        + slotCnt (runList (step noBeh f) initState evs).1 a ∧
    (slotCnt (runList (step noBeh f) initState evs).1 a = 0 →
      countAct (runList (step noBeh f) initState evs).2 a
        = countDeact (runList (step noBeh f) initState evs).2 a) := by
  have h := bal_run f evs initState a hok
  have h0 : slotCnt initState a = 0 := rfl
  omega

/-- The stroke shortcut of the C1 scenarios: key 5 plus button 1. -/
def cexStroke1 : StrokeShortcut :=
  { keys := [5], buttons := [1], group := 1, priority := 0, action := 4, index := 0 }

/-- The C1 counterexample run: register the stroke shortcut, press key 5 so
its action is activated as the ready shortcut, then call `clearShortcuts`. -/
def cexRun1 : MState × List ACall :=
  runList (step noBeh 2) initState
    [Ev.addStroke cexStroke1, Ev.enterEvent, Ev.keyPressed 5, Ev.clearAll]

/-- The second C1 counterexample run: same arming sequence, then
`touchResetStateForPointerEvents`, which nulls the ready shortcut without
deactivating and re-activates the candidate. -/
def cexRun1b : MState × List ACall :=
  runList (step noBeh 2) initState
    [Ev.addStroke cexStroke1, Ev.enterEvent, Ev.keyPressed 5, Ev.touchResetPointer]

/-- C1 counterexample: after `clearShortcuts` the matcher is quiescent (all
four slots empty) yet action 4 received one `activate` and no `deactivate` —
`clearShortcuts` nulls the ready shortcut without deactivating it; and after
`touchResetStateForPointerEvents` the action holds one slot yet received two
`activate` calls and no `deactivate` (the entry point nulls the ready slot
without deactivating and then re-activates).  So the unamended claim is
false, and both entry points must be excluded. -/
theorem claim_C1_cex :
    (cexRun1.1.readyShortcut = none ∧ cexRun1.1.runningShortcut = none ∧
     cexRun1.1.touchShortcut = none ∧ cexRun1.1.nativeGestureShortcut = none ∧
     countAct cexRun1.2 4 = 1 ∧ countDeact cexRun1.2 4 = 0) ∧
    (countAct cexRun1b.2 4 = 2 ∧ countDeact cexRun1b.2 4 = 0 ∧
     slotCnt cexRun1b.1 4 = 1) := by decide

/-- The admitted event sequence of the C1 witness: a full stroke lifecycle
(activate at ready, begin, end + deactivate, re-activate, deactivate). -/
def witEvs1 : List Ev :=
  [Ev.addStroke cexStroke1, Ev.enterEvent, Ev.keyPressed 5,
   Ev.buttonPressed 1 (IEv.raw 0), Ev.buttonReleased 1 (IEv.raw 1), Ev.keyReleased 5]

/-- C1 witness: the stroke-lifecycle sequence contains no `clearShortcuts`,
and the amended theorem yields the activate/deactivate balance for it. -/
theorem claim_C1_witness :
    okRun1 witEvs1 = true ∧
    (countAct (runList (step noBeh 3) initState witEvs1).2 4
        = countDeact (runList (step noBeh 3) initState witEvs1).2 4
          + slotCnt (runList (step noBeh 3) initState witEvs1).1 4 ∧
     (slotCnt (runList (step noBeh 3) initState witEvs1).1 4 = 0 →
       countAct (runList (step noBeh 3) initState witEvs1).2 4
         = countDeact (runList (step noBeh 3) initState witEvs1).2 4)) :=
  ⟨by decide, claim_C1_amended 3 witEvs1 4 (by decide)⟩
